import Mathlib

/-!
Environment registry and plugin dispatch of `mujoco_ros`.

A shallow embedding of `mujoco_ros/src/mujoco_env.cpp` and
`mujoco_ros/include/mujoco_ros/mujoco_env.h`.

* Pointers are `Option`s of addresses: `none` is `nullptr`.
* `std::map` is an association list searched from the front; `std::vector`
  is a `List`.
* Environments live in a heap indexed by their address, because
  `assignData` writes through the `MujocoEnvPtr` it is given.
* Plugins, the parameter server and the plugin loader are external to the
  file: their behaviour is a parameter (`PluginApi`) acting on an abstract
  external state, and every call made to a plugin is recorded in a trace.
* The `ros::service` functions are a parameter too (`RosApi`), with a trace
  of the interactions.
* The destructor is the list of its statements, run in order.
* The offscreen cameras have no code among the sources: their schedule and
  configuration are modelled from the specification, and the assertions of
  `test/mujoco_render_test.cpp` are translated from the test file.
-/

namespace MujocoSim

/-! ## Pointer types -/

/-- Raw `mjData *`: `none` is the null pointer. -/
abbrev mjDataRaw := Option Nat

/-- The smart pointer `mjDataPtr`; `reset(p)` makes it hold `p`. -/
abbrev mjDataPtr := Option Nat

/-- The smart pointer `mjModelPtr`. -/
abbrev mjModelPtr := Option Nat

/-- Address of a `MujocoEnv` object. -/
abbrev EnvId := Nat

/-- Shared pointer to an environment: `none` is `nullptr`. -/
abbrev MujocoEnvPtr := Option EnvId

/-- Shared pointer to a plugin instance, identified by its address. -/
abbrev MujocoPluginPtr := Nat

/-- Raw `mjvScene *` handed to the render callbacks, with the scene contents
abstracted to a number the callbacks may rewrite. -/
abbrev mjvScene := Nat

/-! ## `struct MujocoEnv` -/

/-- The fields of `struct MujocoEnv` (mujoco_env.h, lines 38-47 and 69-73). -/
structure MujocoEnv where
  model : mjModelPtr
  data : mjDataPtr
  ctrlnoise : Option Nat
  nh : Option String
  name : String
  plugins : List MujocoPluginPtr
  cb_ready_plugins : List MujocoPluginPtr

/-- The constructor `MujocoEnv(std::string name)`: it stores the name and
creates the node handle; every other member is default-initialised. -/
def MujocoEnv.new (name : String) : MujocoEnv :=
  { model := none, data := none, ctrlnoise := none, nh := some name, name := name,
    plugins := [], cb_ready_plugins := [] }

/-! ## `std::map` -/

namespace StdMap

/-- The call `m.find(k)`: `none` stands for `m.end()`. -/
def find {K V : Type} [DecidableEq K] : List (K × V) → K → Option V
  | [], _ => none
  | (k', v) :: rest, k => if k' = k then some v else find rest k

/-- The statement `m[k] = v`: the element with key `k` is created when it is
missing, then assigned. -/
def subscriptAssign {K V : Type} [DecidableEq K] : List (K × V) → K → V → List (K × V)
  | [], k, v => [(k, v)]
  | (k', v') :: rest, k, v =>
    if k' = k then (k, v) :: rest else (k', v') :: subscriptAssign rest k v

/-- The expression `m[k]` read as a value: a value-initialised element
(`dflt`) is inserted when the key is missing. -/
def subscriptRead {K V : Type} [DecidableEq K] (dflt : V) :
    List (K × V) → K → V × List (K × V)
  | [], k => (dflt, [(k, dflt)])
  | (k', v) :: rest, k =>
    if k' = k then (v, (k', v) :: rest)
    else ((subscriptRead dflt rest k).1, (k', v) :: (subscriptRead dflt rest k).2)

end StdMap

/-! ## `namespace environments` -/

/-- Everything `assignData` and `getEnv` read or write: the global
`env_map_` and the environment objects the shared pointers point to. -/
structure World where
  env_map_ : List (mjDataRaw × MujocoEnvPtr)
  heap : EnvId → MujocoEnv

/-- Program start: `env_map_` is empty and no environment has been given a
state object yet. -/
def World.initial : World :=
  { env_map_ := [], heap := fun i => MujocoEnv.new (toString i) }

/-- The write `env->data.reset(data)` on the object at address `e`. -/
def World.resetData (w : World) (e : EnvId) (data : mjDataRaw) : World :=
  { w with heap := fun i => if i = e then { w.heap e with data := data } else w.heap i }

namespace environments

/-- `void assignData(mjData *data, MujocoEnvPtr env)` (mujoco_env.cpp, lines
48-52). Dereferencing a null `env` is undefined behaviour: `none`. -/
def assignData (w : World) (data : mjDataRaw) (env : MujocoEnvPtr) : Option World :=
  match env with
  | none => none
  | some e =>
    let w1 := w.resetData e data
    some { w1 with env_map_ := StdMap.subscriptAssign w1.env_map_ data env }

/-- `MujocoEnvPtr getEnv(mjData *data)` (mujoco_env.cpp, lines 54-60): the
returned pointer, and the world after the call (`env_map_[data]` is a
`std::map::operator[]`, which is able to insert). -/
def getEnv (w : World) (data : mjDataRaw) : MujocoEnvPtr × World :=
  if (StdMap.find w.env_map_ data).isSome then
    ((StdMap.subscriptRead none w.env_map_ data).1,
      { w with env_map_ := (StdMap.subscriptRead none w.env_map_ data).2 })
  else
    (none, w)

end environments

/-- A call into `namespace environments`. -/
inductive RegistryCall where
  | assignData (data : mjDataRaw) (env : MujocoEnvPtr)
  | getEnv (data : mjDataRaw)
  deriving DecidableEq

/-- One call executed for its effect on the world. -/
def RegistryCall.exec (w : World) : RegistryCall → Option World
  | .assignData data env => environments.assignData w data env
  | .getEnv data => some (environments.getEnv w data).2

/-- A sequence of calls executed from left to right. -/
def runCalls : World → List RegistryCall → Option World
  | w, [] => some w
  | w, c :: cs =>
    match c.exec w with
    | none => none
    | some w1 => runCalls w1 cs

/-- The property "no state object is shared": two environments whose `data`
holds the same non-null handle are the same environment. -/
def NoSharedData (w : World) : Prop :=
  ∀ e1 e2 : EnvId, ∀ a : Nat,
    (w.heap e1).data = some a → (w.heap e2).data = some a → e1 = e2

/-- The calls never hand one handle to two different environments. -/
def HandlesExclusive (cs : List RegistryCall) : Prop :=
  ∀ data : mjDataRaw, ∀ e1 e2 : MujocoEnvPtr,
    RegistryCall.assignData data e1 ∈ cs → RegistryCall.assignData data e2 ∈ cs → e1 = e2

/-! ## Plugins and the plugin loader (external) -/

/-- One call the environment makes into a plugin, with the arguments passed;
for `safe_load` also the value the call returned. -/
inductive PluginCall where
  | safe_load (p : MujocoPluginPtr) (model : mjModelPtr) (data : mjDataPtr) (ok : Bool)
  | safe_reset (p : MujocoPluginPtr)
  | controlCallback (p : MujocoPluginPtr) (model : mjModelPtr) (data : mjDataPtr)
  | passiveCallback (p : MujocoPluginPtr) (model : mjModelPtr) (data : mjDataPtr)
  | renderCallback (p : MujocoPluginPtr) (model : mjModelPtr) (data : mjDataPtr)
      (scene : mjvScene)
  | lastStageCallback (p : MujocoPluginPtr) (model : mjModelPtr) (data : mjDataPtr)
  deriving DecidableEq

/-- The plugin a call was made on. -/
def PluginCall.plugin : PluginCall → MujocoPluginPtr
  | .safe_load p _ _ _ => p
  | .safe_reset p => p
  | .controlCallback p _ _ => p
  | .passiveCallback p _ _ => p
  | .renderCallback p _ _ _ => p
  | .lastStageCallback p _ _ => p

/-- Whether the call is a `safe_load` that returned `true`. -/
def PluginCall.loadSucceeded : PluginCall → Bool
  | .safe_load _ _ _ ok => ok
  | _ => false

/-- The code `mujoco_env.cpp` calls and does not define. `σ` is the state
outside the environment object (the plugins' own state, the parameter
server, the memory behind the model, data and scene pointers); `Config` is
`XmlRpc::XmlRpcValue`. `parsePlugins` yields the configuration when it
returns `true`; `registerPlugins` yields the new contents of the vector it
is handed. -/
structure PluginApi (σ Config : Type) where
  parsePlugins : σ → Option String → Option Config × σ
  registerPlugins : σ → Option String → Config → List MujocoPluginPtr →
    List MujocoPluginPtr × σ
  safe_load : σ → MujocoPluginPtr → mjModelPtr → mjDataPtr → Bool × σ
  safe_reset : σ → MujocoPluginPtr → σ
  controlCallback : σ → MujocoPluginPtr → mjModelPtr → mjDataPtr → σ
  passiveCallback : σ → MujocoPluginPtr → mjModelPtr → mjDataPtr → σ
  renderCallback : σ → MujocoPluginPtr → mjModelPtr → mjDataPtr → mjvScene → σ
  lastStageCallback : σ → MujocoPluginPtr → mjModelPtr → mjDataPtr → σ

/-- The external state together with the record of plugin calls made so
far, oldest first. -/
structure Sim (σ : Type) where
  ext : σ
  trace : List PluginCall

/-- A plugin call has been made: the external state it left, and its record
appended to the trace. -/
def Sim.called {σ : Type} (s : Sim σ) (ext : σ) (c : PluginCall) : Sim σ :=
  { ext := ext, trace := s.trace ++ [c] }

/-! ## Member functions of `MujocoEnv` -/

section Members

variable {σ Config : Type}

/-- The loop of `reload` (mujoco_env.cpp, lines 101-105), over the plugins
still to visit, with `cb_ready_plugins` as built so far. -/
def reloadLoop (api : PluginApi σ Config) (model : mjModelPtr) (data : mjDataPtr) :
    List MujocoPluginPtr → List MujocoPluginPtr → Sim σ → List MujocoPluginPtr × Sim σ
  | [], ready, s => (ready, s)
  | p :: rest, ready, s =>
    let r := api.safe_load s.ext p model data
    let s1 := s.called r.2 (.safe_load p model data r.1)
    if r.1 then reloadLoop api model data rest (ready ++ [p]) s1
    else reloadLoop api model data rest ready s1

/-- `void MujocoEnv::reload()` (mujoco_env.cpp, lines 90-106). -/
def MujocoEnv.reload (api : PluginApi σ Config) (e : MujocoEnv) (s : Sim σ) :
    MujocoEnv × Sim σ :=
  let e1 := { e with cb_ready_plugins := [] }
  let e2 := { e1 with plugins := [] }
  let parsed := api.parsePlugins s.ext e2.nh
  let registered :=
    match parsed.1 with
    | some plugin_config => api.registerPlugins parsed.2 e2.nh plugin_config e2.plugins
    | none => (e2.plugins, parsed.2)
  let e3 := { e2 with plugins := registered.1 }
  let looped := reloadLoop api e3.model e3.data e3.plugins e3.cb_ready_plugins
    { s with ext := registered.2 }
  ({ e3 with cb_ready_plugins := looped.1 }, looped.2)

/-- `void MujocoEnv::reset()` (mujoco_env.cpp, lines 108-113). -/
def MujocoEnv.reset (api : PluginApi σ Config) (e : MujocoEnv) (s : Sim σ) :
    MujocoEnv × Sim σ :=
  (e, e.plugins.foldl (fun s p => s.called (api.safe_reset s.ext p) (.safe_reset p)) s)

/-- `const std::vector<MujocoPluginPtr> MujocoEnv::getPlugins()`
(mujoco_env.cpp, lines 115-118). -/
def MujocoEnv.getPlugins (e : MujocoEnv) : List MujocoPluginPtr :=
  e.plugins

/-- `void MujocoEnv::runControlCbs()` (mujoco_env.cpp, lines 120-125). -/
def MujocoEnv.runControlCbs (api : PluginApi σ Config) (e : MujocoEnv) (s : Sim σ) :
    MujocoEnv × Sim σ :=
  (e, e.cb_ready_plugins.foldl
    (fun s p => s.called (api.controlCallback s.ext p e.model e.data)
      (.controlCallback p e.model e.data)) s)

/-- `void MujocoEnv::runPassiveCbs()` (mujoco_env.cpp, lines 127-132). -/
def MujocoEnv.runPassiveCbs (api : PluginApi σ Config) (e : MujocoEnv) (s : Sim σ) :
    MujocoEnv × Sim σ :=
  (e, e.cb_ready_plugins.foldl
    (fun s p => s.called (api.passiveCallback s.ext p e.model e.data)
      (.passiveCallback p e.model e.data)) s)

/-- `void MujocoEnv::runRenderCbs(mjvScene *scene)` (mujoco_env.cpp, lines
135-142). -/
def MujocoEnv.runRenderCbs (api : PluginApi σ Config) (e : MujocoEnv) (scene : mjvScene)
    (s : Sim σ) : MujocoEnv × Sim σ :=
  if e.plugins.isEmpty then (e, s)
  else
    (e, e.cb_ready_plugins.foldl
      (fun s p => s.called (api.renderCallback s.ext p e.model e.data scene)
        (.renderCallback p e.model e.data scene)) s)

/-- `void MujocoEnv::runLastStageCbs()` (mujoco_env.cpp, lines 144-149). -/
def MujocoEnv.runLastStageCbs (api : PluginApi σ Config) (e : MujocoEnv) (s : Sim σ) :
    MujocoEnv × Sim σ :=
  (e, e.cb_ready_plugins.foldl
    (fun s p => s.called (api.lastStageCallback s.ext p e.model e.data)
      (.lastStageCallback p e.model e.data)) s)

/-- A member function of `MujocoEnv` called from outside. -/
inductive EnvOp where
  | reload
  | reset
  | getPlugins
  | runControlCbs
  | runPassiveCbs
  | runRenderCbs (scene : mjvScene)
  | runLastStageCbs
  deriving DecidableEq

/-- One member-function call executed for its effect. -/
def EnvOp.exec (api : PluginApi σ Config) (st : MujocoEnv × Sim σ) :
    EnvOp → MujocoEnv × Sim σ
  | .reload => st.1.reload api st.2
  | .reset => st.1.reset api st.2
  | .getPlugins => st
  | .runControlCbs => st.1.runControlCbs api st.2
  | .runPassiveCbs => st.1.runPassiveCbs api st.2
  | .runRenderCbs scene => st.1.runRenderCbs api scene st.2
  | .runLastStageCbs => st.1.runLastStageCbs api st.2

/-- A sequence of member-function calls executed from left to right. -/
def runOps (api : PluginApi σ Config) (st : MujocoEnv × Sim σ) (ops : List EnvOp) :
    MujocoEnv × Sim σ :=
  ops.foldl (EnvOp.exec api) st

end Members

/-- The invariant of the data model: `ready ⊆ plugins` and
`|ready| ≤ |plugins|`. -/
def ReadyWithinPlugins (e : MujocoEnv) : Prop :=
  e.cb_ready_plugins ⊆ e.plugins ∧ e.cb_ready_plugins.length ≤ e.plugins.length

/-! ## A concrete plugin set -/

/-- Two plugins are configured, at addresses `0` (A) and `1` (B), in that
order; `safe_load` fails exactly on the plugins listed in `failing`. The
external state counts the calls made. -/
def scenarioApi (failing : List MujocoPluginPtr) : PluginApi Nat Unit :=
  { parsePlugins := fun x _ => (some (), x)
    registerPlugins := fun x _ _ ps => (ps ++ [0, 1], x)
    safe_load := fun x p _ _ => (decide (p ∉ failing), x + 1)
    safe_reset := fun x _ => x + 1
    controlCallback := fun x _ _ _ => x + 1
    passiveCallback := fun x _ _ _ => x + 1
    renderCallback := fun x _ _ _ _ => x + 1
    lastStageCallback := fun x _ _ _ => x + 1 }

/-- A freshly constructed environment `"env"` before any plugin call. -/
def scenarioStart : MujocoEnv × Sim Nat :=
  (MujocoEnv.new "env", { ext := 0, trace := [] })

/-- The environment after `reload()` when plugin A fails to load and plugin
B loads. -/
def scenarioLoaded : MujocoEnv × Sim Nat :=
  scenarioStart.1.reload (scenarioApi [0]) scenarioStart.2

/-- Modelled from the spec: the wrapper `safe_reset()` of `plugin_utils.h`,
which is not among the sources and through which `MujocoEnv::reset` reaches a
plugin. It invokes the plugin's own `reset()` hook, here `reset`, whether or
not the plugin's load succeeded (sections 3, 4.2 and 7: reset is invoked on
every plugin in `plugins` regardless of load success). -/
def safe_reset {σ : Type} (reset : σ → MujocoPluginPtr → σ) (x : σ) (p : MujocoPluginPtr) : σ :=
  reset x p

/-- The plugin set of `scenarioApi [0]` (A fails to load, B loads) with the
wrapper of the specification for `safe_reset`. The external state is the list
of the plugins whose own `reset()` hook has run, oldest first. -/
def scenarioResetApi : PluginApi (List MujocoPluginPtr) Unit :=
  { parsePlugins := fun x _ => (some (), x)
    registerPlugins := fun x _ _ ps => (ps ++ [0, 1], x)
    safe_load := fun x p _ _ => (decide (p ∉ [0]), x)
    safe_reset := safe_reset (fun x p => x ++ [p])
    controlCallback := fun x _ _ _ => x
    passiveCallback := fun x _ _ _ => x
    renderCallback := fun x _ _ _ _ => x
    lastStageCallback := fun x _ _ _ => x }

/-- A freshly constructed environment `"env"` before any plugin call, for
`scenarioResetApi`. -/
def scenarioResetStart : MujocoEnv × Sim (List MujocoPluginPtr) :=
  (MujocoEnv.new "env", { ext := [], trace := [] })

/-- The pointer a handle is mapped to after the calls `cs`, when it was
mapped to `cur` before them: the argument of the last `assignData` on that
handle, or `cur` when there is none. -/
def lastAssigned (h : mjDataRaw) : List RegistryCall → MujocoEnvPtr → MujocoEnvPtr
  | [], cur => cur
  | .assignData d env :: cs, cur => lastAssigned h cs (if d = h then env else cur)
  | .getEnv _ :: cs, cur => lastAssigned h cs cur

/-! ## The destructor `MujocoEnv::~MujocoEnv` -/

/-- A statement of the destructor body (mujoco_env.cpp, lines 153-158). -/
inductive DtorStmt where
  | cb_ready_plugins_clear
  | plugins_clear
  | model_reset
  | data_reset
  | ctrlnoise_null
  | nh_reset
  deriving DecidableEq

/-- The effect of one destructor statement on the members. -/
def DtorStmt.exec (e : MujocoEnv) : DtorStmt → MujocoEnv
  | .cb_ready_plugins_clear => { e with cb_ready_plugins := [] }
  | .plugins_clear => { e with plugins := [] }
  | .model_reset => { e with model := none }
  | .data_reset => { e with data := none }
  | .ctrlnoise_null => { e with ctrlnoise := none }
  | .nh_reset => { e with nh := none }

/-- The body of `MujocoEnv::~MujocoEnv()`, in source order. -/
def MujocoEnv.destructorBody : List DtorStmt :=
  [.cb_ready_plugins_clear, .plugins_clear, .model_reset, .data_reset, .ctrlnoise_null,
    .nh_reset]

/-- Statements executed in order: each statement paired with the members as
they were when it started, and the members at the end. -/
def runDtor : MujocoEnv → List DtorStmt → List (DtorStmt × MujocoEnv) × MujocoEnv
  | e, [] => ([], e)
  | e, st :: rest => ((st, e) :: (runDtor (st.exec e) rest).1, (runDtor (st.exec e) rest).2)

/-- `MujocoEnv::~MujocoEnv()` (mujoco_env.cpp, lines 151-159). -/
def MujocoEnv.destroy (e : MujocoEnv) : List (DtorStmt × MujocoEnv) × MujocoEnv :=
  runDtor e MujocoEnv.destructorBody

/-- The release steps of the destruction sequence in the order the
specification gives them: ready, plugins, state object, model, node handle. -/
def specReleaseOrder : List DtorStmt :=
  [.cb_ready_plugins_clear, .plugins_clear, .data_reset, .model_reset, .nh_reset]

/-! ## `struct MujocoEnvParallel` and the ROS services it calls (external) -/

/-- The request part of `mujoco_ros_msgs::BootstrapNS`. -/
structure BootstrapNSRequest where
  ros_namespace : String
  launchfile : String
  args : List String
  deriving DecidableEq

/-- The request part of `mujoco_ros_msgs::ShutdownNS`. -/
structure ShutdownNSRequest where
  ros_namespace : String
  deriving DecidableEq

/-- The two error messages of `bootstrapNamespace`. -/
inductive ErrorMsg where
  | bootstrapTimeout
  | bootstrapFailed (name : String)
  deriving DecidableEq

/-- One interaction with ROS: a `ros::service` call with its arguments and
the value it returned, or an error written to the log. -/
inductive RosCall where
  | waitForService (service : String) (seconds : Nat) (ok : Bool)
  | callBootstrapNS (service : String) (request : BootstrapNSRequest) (ok : Bool)
  | callShutdownNS (service : String) (request : ShutdownNSRequest) (ok : Bool)
  | ROS_ERROR (msg : ErrorMsg)
  deriving DecidableEq

/-- The `ros::service` functions `mujoco_env.cpp` calls, acting on the state
`ρ` of the ROS side. Neither raises. -/
structure RosApi (ρ : Type) where
  waitForService : ρ → String → Nat → Bool × ρ
  callBootstrapNS : ρ → String → BootstrapNSRequest → Bool × ρ
  callShutdownNS : ρ → String → ShutdownNSRequest → Bool × ρ

/-- The state of the ROS side together with the record of the interactions so
far, oldest first. -/
structure Ros (ρ : Type) where
  ext : ρ
  trace : List RosCall

/-- An interaction has been made: the state it left, and its record
appended to the trace. -/
def Ros.called {ρ : Type} (r : Ros ρ) (ext : ρ) (c : RosCall) : Ros ρ :=
  { ext := ext, trace := r.trace ++ [c] }

/-- The members `MujocoEnvParallel` adds to `MujocoEnv` (mujoco_env.h, lines
93-99). `stop_loop` is `none` until something stores a value in it. -/
structure MujocoEnvParallel extends MujocoEnv where
  loop_thread : Option Nat
  stop_loop : Option Bool
  launchfile : String
  launch_args : List String

/-- `void MujocoEnvParallel::bootstrapNamespace()` (mujoco_env.cpp, lines
72-88). -/
def MujocoEnvParallel.bootstrapNamespace {ρ : Type} (api : RosApi ρ) (e : MujocoEnvParallel)
    (r : Ros ρ) : MujocoEnvParallel × Ros ρ :=
  let bootstrap_msg : BootstrapNSRequest :=
    { ros_namespace := e.name, launchfile := e.launchfile, args := e.launch_args }
  let waited := api.waitForService r.ext "/bootstrap_ns" 5
  let r1 := r.called waited.2 (.waitForService "/bootstrap_ns" 5 waited.1)
  if waited.1 = false then
    (e, r1.called r1.ext (.ROS_ERROR .bootstrapTimeout))
  else
    let answered := api.callBootstrapNS r1.ext "/bootstrap_ns" bootstrap_msg
    let r2 := r1.called answered.2 (.callBootstrapNS "/bootstrap_ns" bootstrap_msg answered.1)
    if answered.1 = false then
      (e, r2.called r2.ext (.ROS_ERROR (.bootstrapFailed e.name)))
    else
      (e, r2)

/-- The constructor `MujocoEnvParallel(ros_ns, launchfile, launch_args)`
(mujoco_env.cpp, lines 64-70). -/
def MujocoEnvParallel.new {ρ : Type} (api : RosApi ρ) (ros_ns launchfile : String)
    (launch_args : List String) (r : Ros ρ) : MujocoEnvParallel × Ros ρ :=
  let e : MujocoEnvParallel :=
    { toMujocoEnv := MujocoEnv.new ros_ns, loop_thread := none, stop_loop := none,
      launchfile := launchfile, launch_args := launch_args }
  if launchfile = "" then (e, r) else e.bootstrapNamespace api r

/-- `MujocoEnvParallel::~MujocoEnvParallel()` (mujoco_env.cpp, lines 161-167)
followed by the base class destructor: the statements the base destructor
ran, the base members at the end, and the ROS side. -/
def MujocoEnvParallel.destroy {ρ : Type} (api : RosApi ρ) (e : MujocoEnvParallel)
    (r : Ros ρ) : (List (DtorStmt × MujocoEnv) × MujocoEnv) × Ros ρ :=
  let shutdown_msg : ShutdownNSRequest := { ros_namespace := e.name }
  let answered := api.callShutdownNS r.ext "/shutdown_ns" shutdown_msg
  let r1 := r.called answered.2 (.callShutdownNS "/shutdown_ns" shutdown_msg answered.1)
  (e.toMujocoEnv.destroy, r1)

/-- An environment in use: plugins `[A, B]`, ready list `[B]`, a model and a
state object. -/
def scenarioLive : MujocoEnv :=
  { scenarioLoaded.1 with model := some 1, data := some 2 }

/-- A ROS side on which `/bootstrap_ns` becomes reachable exactly when
`reachable` holds, and every request is answered with `answer`. The state
counts the interactions. -/
def scenarioRos (reachable answer : Bool) : RosApi Nat :=
  { waitForService := fun x _ _ => (reachable, x + 1)
    callBootstrapNS := fun x _ _ => (answer, x + 1)
    callShutdownNS := fun x _ _ => (answer, x + 1) }

/-- A parallel environment `"ns"` with launchfile `robot.launch` and one
launch argument. -/
def scenarioParallel : MujocoEnvParallel :=
  { toMujocoEnv := MujocoEnv.new "ns", loop_thread := none, stop_loop := none,
    launchfile := "robot.launch", launch_args := ["verbose"] }

/-! ## Offscreen cameras

The camera code (`offscreen_camera.h`, its implementation and the stepping
loop) is not among the sources; only `test/mujoco_render_test.cpp` is. The
schedule and the camera configuration are modelled from the specification,
with exact rationals for its real numbers, and the assertions of the tests are
translated from the test file. -/

/-- Modelled from the spec: `steps_per_period = ceil(1/(frequency*timestep))`
of section 4.4, which the missing camera scheduler computes. -/
def steps_per_period (timestep frequency : ℚ) : ℤ :=
  ⌈1 / (frequency * timestep)⌉

/-- Modelled from the spec: the `CameraSchedule` of section 3, the trigger
state the missing camera scheduler keeps per camera. -/
structure CameraSchedule where
  next_trigger_time : ℚ

/-- Modelled from the spec: the per-step evaluation of one camera by the
missing scheduler (section 4.4). The camera fires when the simulation time has
reached `next_trigger_time`, which is then advanced by
`steps_per_period * timestep`. The result says whether the camera fired. -/
def CameraSchedule.evaluate (timestep frequency : ℚ) (c : CameraSchedule) (time : ℚ) :
    Bool × CameraSchedule :=
  if c.next_trigger_time ≤ time then
    (true, { next_trigger_time :=
      c.next_trigger_time + steps_per_period timestep frequency * timestep })
  else
    (false, c)

/-- Modelled from the spec: the schedule after `k` simulation steps of the
missing stepping loop, which starts at simulation time `0` and evaluates the
camera after every step, at simulation time `k * timestep`. -/
def CameraSchedule.afterSteps (timestep frequency : ℚ) (c : CameraSchedule) :
    ℕ → CameraSchedule
  | 0 => c
  | k + 1 =>
    ((c.afterSteps timestep frequency k).evaluate timestep frequency
      (((k + 1 : ℕ) : ℚ) * timestep)).2

/-- Modelled from the spec: whether the camera of the missing scheduler fires
in step `k` (steps are counted from `1`). -/
def CameraSchedule.firesAt (timestep frequency : ℚ) (c : CameraSchedule) : ℕ → Bool
  | 0 => false
  | k + 1 =>
    ((c.afterSteps timestep frequency k).evaluate timestep frequency
      (((k + 1 : ℕ) : ℚ) * timestep)).1

/-- Modelled from the spec: the stamps of the images the missing scheduler has
published after `k` steps, oldest first; each image is stamped with the
simulation time at the trigger (section 4.4, step 2). -/
def CameraSchedule.published (timestep frequency : ℚ) (c : CameraSchedule) : ℕ → List ℚ
  | 0 => []
  | k + 1 =>
    if c.firesAt timestep frequency (k + 1) then
      c.published timestep frequency k ++ [((k + 1 : ℕ) : ℚ) * timestep]
    else
      c.published timestep frequency k

/-- The statement of the specification that a camera fires at simulation
times that are exact multiples of the step count times the timestep. -/
def FiresOnMultiples (timestep frequency : ℚ) (c : CameraSchedule) : Prop :=
  ∀ k : ℕ, c.firesAt timestep frequency k = true →
    ∃ m : ℤ, (k : ℚ) * timestep = m * (steps_per_period timestep frequency * timestep)

/-- The assertions of `TEST_F(BaseEnvFixture, Cam_Timing_Correct)`
(mujoco_render_test.cpp, lines 520-627) on the images of a 30 Hz camera: one
image after `step(1)`, still one after `step(n_steps - 1)`, two after
`step(1)`, three after `step(2 * n_steps - 1)`, stamped `t1`, `t2` and
`t3 = t2 + n_steps * timestep`, where `t1` and `t2` are the simulation times
read after the first and the third call of `step`. -/
def Cam_Timing_Correct (timestep : ℚ) (c : CameraSchedule) : Prop :=
  c.published timestep 30 1 = [((1 : ℕ) : ℚ) * timestep] ∧
  c.published timestep 30 (1 + (⌈(1 / 30 : ℚ) / timestep⌉.toNat - 1)) =
    [((1 : ℕ) : ℚ) * timestep] ∧
  c.published timestep 30 (1 + (⌈(1 / 30 : ℚ) / timestep⌉.toNat - 1) + 1) =
    [((1 : ℕ) : ℚ) * timestep,
      ((1 + (⌈(1 / 30 : ℚ) / timestep⌉.toNat - 1) + 1 : ℕ) : ℚ) * timestep] ∧
  c.published timestep 30
      (1 + (⌈(1 / 30 : ℚ) / timestep⌉.toNat - 1) + 1 +
        (2 * ⌈(1 / 30 : ℚ) / timestep⌉.toNat - 1)) =
    [((1 : ℕ) : ℚ) * timestep,
      ((1 + (⌈(1 / 30 : ℚ) / timestep⌉.toNat - 1) + 1 : ℕ) : ℚ) * timestep,
      ((1 + (⌈(1 / 30 : ℚ) / timestep⌉.toNat - 1) + 1 : ℕ) : ℚ) * timestep +
        (⌈(1 / 30 : ℚ) / timestep⌉.toNat : ℚ) * timestep]

/-- Modelled from the spec: the stream types of section 6, which the missing
`offscreen_camera.h` declares as `rendering::streamType`. -/
inductive streamType where
  | RGB
  | DEPTH
  | SEGMENTED
  | RGB_D
  | RGB_S
  | DEPTH_S
  | RGB_D_S
  deriving DecidableEq

/-- Modelled from the spec: the per-camera configuration parameters of
section 6 (`cam_config/<camera>/stream_type`, `width`, `height`,
`frequency`) as the missing camera constructor finds them on the parameter
server; `none` is a parameter that is not set. -/
structure CamConfigParams where
  stream_type : Option streamType
  width : Option Nat
  height : Option Nat
  frequency : Option ℚ

/-- Modelled from the spec: the `CameraConfig` of section 3, with the member
names the tests read from the missing `OffscreenCamera` class. -/
structure OffscreenCamera where
  cam_id_ : Nat
  cam_name_ : String
  stream_type_ : streamType
  pub_freq_ : ℚ
  width_ : Nat
  height_ : Nat

/-- Modelled from the spec: the missing camera constructor reading its
parameters, with the defaults of section 3: frequency 15, width 720,
height 480, stream-type RGB. -/
def OffscreenCamera.configure (cam_id : Nat) (cam_name : String) (p : CamConfigParams) :
    OffscreenCamera :=
  { cam_id_ := cam_id
    cam_name_ := cam_name
    stream_type_ := p.stream_type.getD streamType.RGB
    pub_freq_ := p.frequency.getD 15
    width_ := p.width.getD 720
    height_ := p.height.getD 480 }

/-- The parameters `TEST_F(BaseEnvFixture, Default_Cam_Settings)` leaves on the
parameter server for `test_cam`: none. -/
def Default_Cam_Settings_params : CamConfigParams :=
  { stream_type := none, width := none, height := none, frequency := none }

/-- The parameters `TEST_F(BaseEnvFixture, Resolution_Settings)` sets for
`test_cam`: width 640 and height 480. -/
def Resolution_Settings_params : CamConfigParams :=
  { stream_type := none, width := some 640, height := some 480, frequency := none }

/-- The `EXPECT_EQ` lines both tests share (mujoco_render_test.cpp, lines
418-423 and 447-452), with the width and height each test expects. -/
def Cam_Settings_Expected (cam : OffscreenCamera) (width height : Nat) : Prop :=
  cam.cam_id_ = 0 ∧ cam.cam_name_ = "test_cam" ∧ cam.stream_type_ = streamType.RGB ∧
    cam.pub_freq_ = 15 ∧ cam.width_ = width ∧ cam.height_ = height

/-! ## Registry lemmas -/

theorem StdMap.find_subscriptAssign_same {K V : Type} [DecidableEq K]
    (m : List (K × V)) (k : K) (v : V) :
    StdMap.find (StdMap.subscriptAssign m k v) k = some v := by
  induction m with
  | nil => simp [StdMap.subscriptAssign, StdMap.find]
  | cons p rest ih =>
    obtain ⟨k', v'⟩ := p
    by_cases hk : k' = k
    · simp [StdMap.subscriptAssign, StdMap.find, hk]
    · simp [StdMap.subscriptAssign, StdMap.find, hk, ih]

theorem StdMap.find_subscriptAssign_other {K V : Type} [DecidableEq K]
    (m : List (K × V)) (k k2 : K) (v : V) (hne : k2 ≠ k) :
    StdMap.find (StdMap.subscriptAssign m k v) k2 = StdMap.find m k2 := by
  induction m with
  | nil => simp [StdMap.subscriptAssign, StdMap.find, Ne.symm hne]
  | cons p rest ih =>
    obtain ⟨k', v'⟩ := p
    by_cases hk : k' = k
    · subst hk
      simp [StdMap.subscriptAssign, StdMap.find, Ne.symm hne]
    · by_cases hk2 : k' = k2
      · subst hk2
        simp [StdMap.subscriptAssign, StdMap.find, hk]
      · simp [StdMap.subscriptAssign, StdMap.find, hk, hk2, ih]

/-- Reading `m[k]` when `find` has located `k`: the stored value comes back
and the map is not modified. -/
theorem StdMap.subscriptRead_of_find {K V : Type} [DecidableEq K] (dflt : V)
    (m : List (K × V)) (k : K) (v : V) (h : StdMap.find m k = some v) :
    StdMap.subscriptRead dflt m k = (v, m) := by
  induction m with
  | nil => simp [StdMap.find] at h
  | cons p rest ih =>
    obtain ⟨k', v'⟩ := p
    by_cases hk : k' = k
    · simp [StdMap.find, hk] at h
      simp [StdMap.subscriptRead, hk, h]
    · simp [StdMap.find, hk] at h
      simp [StdMap.subscriptRead, hk, ih h]

/-- The pointer `getEnv` returns is what `find` locates, with a missing key
and a stored null pointer both read as `nullptr`. -/
theorem environments.getEnv_fst (w : World) (data : mjDataRaw) :
    (environments.getEnv w data).1 = (StdMap.find w.env_map_ data).getD none := by
  unfold environments.getEnv
  cases h : StdMap.find w.env_map_ data with
  | none => simp
  | some v => simp [StdMap.subscriptRead_of_find none _ _ _ h]

/-- A lookup leaves the world as it was. -/
theorem environments.getEnv_snd (w : World) (data : mjDataRaw) :
    (environments.getEnv w data).2 = w := by
  unfold environments.getEnv
  cases h : StdMap.find w.env_map_ data with
  | none => simp
  | some v => simp [StdMap.subscriptRead_of_find none _ _ _ h]

theorem StdMap.keys_subscriptAssign {K V : Type} [DecidableEq K]
    (m : List (K × V)) (k k2 : K) (v : V) :
    k2 ∈ (StdMap.subscriptAssign m k v).map Prod.fst ↔ k2 = k ∨ k2 ∈ m.map Prod.fst := by
  induction m with
  | nil => simp [StdMap.subscriptAssign]
  | cons p rest ih =>
    obtain ⟨k', v'⟩ := p
    by_cases hk : k' = k
    · subst hk
      simp [StdMap.subscriptAssign]
    · simp only [StdMap.subscriptAssign, hk, if_false, List.map_cons, List.mem_cons, ih]
      tauto

/-- Keys stay pairwise distinct under `m[k] = v`. -/
theorem StdMap.nodup_subscriptAssign {K V : Type} [DecidableEq K]
    (m : List (K × V)) (k : K) (v : V) (h : (m.map Prod.fst).Nodup) :
    ((StdMap.subscriptAssign m k v).map Prod.fst).Nodup := by
  induction m with
  | nil => simp [StdMap.subscriptAssign]
  | cons p rest ih =>
    obtain ⟨k', v'⟩ := p
    simp only [List.map_cons, List.nodup_cons] at h
    by_cases hk : k' = k
    · subst hk
      simpa [StdMap.subscriptAssign] using h
    · simp only [StdMap.subscriptAssign, hk, if_false, List.map_cons, List.nodup_cons]
      refine ⟨?_, ih h.2⟩
      rw [StdMap.keys_subscriptAssign]
      rintro (h1 | h1)
      · exact hk h1
      · exact h.1 h1

/-- With pairwise distinct keys, `m[k] = v` leaves exactly one element for
the key `k`, and it holds `v`. -/
theorem StdMap.filter_subscriptAssign {K V : Type} [DecidableEq K]
    (m : List (K × V)) (k : K) (v : V) (h : (m.map Prod.fst).Nodup) :
    (StdMap.subscriptAssign m k v).filter (fun p => decide (p.1 = k)) = [(k, v)] := by
  induction m with
  | nil => simp [StdMap.subscriptAssign]
  | cons p rest ih =>
    obtain ⟨k', v'⟩ := p
    simp only [List.map_cons, List.nodup_cons] at h
    by_cases hk : k' = k
    · subst hk
      have hrest : rest.filter (fun p => decide (p.1 = k')) = [] := by
        rw [List.filter_eq_nil_iff]
        intro q hq hq1
        exact h.1 (List.mem_map.mpr ⟨q, hq, by simpa using hq1⟩)
      simp [StdMap.subscriptAssign, List.filter_cons, hrest]
    · simp [StdMap.subscriptAssign, List.filter_cons, hk, ih h.2]

/-- A run of registry calls changes what `find` locates for a handle only
through an `assignData` on that handle. -/
theorem runCalls_find_of_not_assigned (cs : List RegistryCall) (w0 w : World)
    (h : mjDataRaw) (hrun : runCalls w0 cs = some w)
    (hnever : ∀ env, RegistryCall.assignData h env ∉ cs) :
    StdMap.find w.env_map_ h = StdMap.find w0.env_map_ h := by
  induction cs generalizing w0 with
  | nil =>
    simp only [runCalls, Option.some.injEq] at hrun
    rw [hrun]
  | cons c rest ih =>
    have hrest : ∀ env, RegistryCall.assignData h env ∉ rest := fun env hm =>
      hnever env (List.mem_cons_of_mem _ hm)
    cases c with
    | getEnv d =>
      simp only [runCalls, RegistryCall.exec, environments.getEnv_snd] at hrun
      exact ih w0 hrun hrest
    | assignData d env =>
      cases env with
      | none => simp [runCalls, RegistryCall.exec, environments.assignData] at hrun
      | some e =>
        simp only [runCalls, RegistryCall.exec, environments.assignData] at hrun
        rw [ih _ hrun hrest]
        have hne : h ≠ d := by
          rintro rfl
          exact hnever (some e) (List.mem_cons_self _ _)
        simpa [World.resetData] using
          StdMap.find_subscriptAssign_other w0.env_map_ d h (some e) hne

/-- A handle found in an environment's `data` after a run of registry calls
was there before the run or was assigned to that environment during it. -/
theorem runCalls_data_origin (cs : List RegistryCall) (w0 w : World) (e : EnvId) (a : Nat)
    (hrun : runCalls w0 cs = some w) (hdata : (w.heap e).data = some a) :
    (w0.heap e).data = some a ∨ RegistryCall.assignData (some a) (some e) ∈ cs := by
  induction cs generalizing w0 with
  | nil =>
    simp only [runCalls, Option.some.injEq] at hrun
    subst hrun
    exact Or.inl hdata
  | cons c rest ih =>
    cases c with
    | getEnv d =>
      simp only [runCalls, RegistryCall.exec, environments.getEnv_snd] at hrun
      rcases ih w0 hrun with h1 | h1
      · exact Or.inl h1
      · exact Or.inr (List.mem_cons_of_mem _ h1)
    | assignData d env =>
      cases env with
      | none => simp [runCalls, RegistryCall.exec, environments.assignData] at hrun
      | some e1 =>
        simp only [runCalls, RegistryCall.exec, environments.assignData] at hrun
        rcases ih _ hrun with h1 | h1
        · by_cases he : e = e1
          · subst he
            simp only [World.resetData, if_true] at h1
            right
            rw [h1]
            exact List.mem_cons_self _ _
          · simp only [World.resetData, he, if_false] at h1
            exact Or.inl h1
        · exact Or.inr (List.mem_cons_of_mem _ h1)

/-! ## Registry claims -/

/-- C1: for every registry state, every handle `h` and every non-null
environment `e`, `assignData(h, e)` completes and `getEnv(h)` then returns
`e`. -/
theorem C1_getEnv_after_assignData (w : World) (h : mjDataRaw) (e : EnvId) :
    ∃ w1, environments.assignData w h (some e) = some w1 ∧
      (environments.getEnv w1 h).1 = some e := by
  refine ⟨_, rfl, ?_⟩
  rw [environments.getEnv_fst]
  simp [World.resetData, StdMap.find_subscriptAssign_same]

/-- C2: starting from an empty registry, after any completed sequence of
`assignData` and `getEnv` calls in which `h` was never passed to
`assignData`, `getEnv(h)` returns `nullptr` (and leaves the world as it
was); `getEnv` is a total function, so it always returns. -/
theorem C2_getEnv_never_assigned (cs : List RegistryCall) (w0 w : World) (h : mjDataRaw)
    (hempty : w0.env_map_ = [])
    (hrun : runCalls w0 cs = some w)
    (hnever : ∀ env, RegistryCall.assignData h env ∉ cs) :
    environments.getEnv w h = (none, w) := by
  have hfind := runCalls_find_of_not_assigned cs w0 w h hrun hnever
  rw [hempty] at hfind
  simp only [StdMap.find] at hfind
  unfold environments.getEnv
  simp [hfind]

/-- C2 at a concrete input: one handle is assigned and looked up, another
handle is then looked up in the resulting world. -/
theorem C2_getEnv_never_assigned_witness :
    ∃ w, runCalls World.initial
        [RegistryCall.assignData (some 1) (some 0), RegistryCall.getEnv (some 1)] = some w ∧
      environments.getEnv w (some 2) = (none, w) :=
  ⟨_, rfl, C2_getEnv_never_assigned
    [RegistryCall.assignData (some 1) (some 0), RegistryCall.getEnv (some 1)]
    World.initial _ (some 2) rfl rfl (by intro env hm; simp at hm)⟩

/-- C3: `assignData(h, e)` is a point update of the registry: afterwards
`getEnv(h)` is `e` whatever `h` was mapped to before, `getEnv` of every other
handle returns what it returned before, and when the keys of the map are
pairwise distinct they stay so and exactly one element has the key `h`. -/
theorem C3_assignData_point_update (w : World) (h : mjDataRaw) (e : EnvId) :
    ∃ w1, environments.assignData w h (some e) = some w1 ∧
      (environments.getEnv w1 h).1 = some e ∧
      (∀ h2, h2 ≠ h → (environments.getEnv w1 h2).1 = (environments.getEnv w h2).1) ∧
      ((w.env_map_.map Prod.fst).Nodup →
        (w1.env_map_.map Prod.fst).Nodup ∧
        w1.env_map_.filter (fun p => decide (p.1 = h)) = [(h, some e)]) := by
  refine ⟨_, rfl, ?_, ?_, ?_⟩
  · rw [environments.getEnv_fst]
    simp [World.resetData, StdMap.find_subscriptAssign_same]
  · intro h2 hne
    rw [environments.getEnv_fst, environments.getEnv_fst]
    simp [World.resetData, StdMap.find_subscriptAssign_other _ _ _ _ hne]
  · intro hnd
    exact ⟨StdMap.nodup_subscriptAssign _ _ _ hnd, StdMap.filter_subscriptAssign _ _ _ hnd⟩

/-- C4, refuted as stated: after `assignData(7, e0)` and `assignData(7, e1)`
on the initial world, the two distinct environments `e0` and `e1` both hold
the handle `7` in their `data` field. -/
theorem C4_shared_data_counterexample :
    ¬ ∀ (cs : List RegistryCall) (w : World),
        (∀ c ∈ cs, ∃ d env, c = RegistryCall.assignData d env) →
        runCalls World.initial cs = some w → NoSharedData w := by
  intro hall
  have hshared := hall
    [RegistryCall.assignData (some 7) (some 0), RegistryCall.assignData (some 7) (some 1)] _
    (by intro c hc; simp at hc; rcases hc with rfl | rfl <;> exact ⟨_, _, rfl⟩)
    rfl 0 1 7 rfl rfl
  exact absurd hshared (by decide)

/-- C4, amended: in every state reached from the initial world by a
completed sequence of registry calls that never hands one handle to two
different environments, no two distinct environments hold the same state
handle in their `data` field. -/
theorem C4_no_shared_data_of_exclusive (cs : List RegistryCall) (w : World)
    (hrun : runCalls World.initial cs = some w) (hex : HandlesExclusive cs) :
    NoSharedData w := by
  intro e1 e2 a h1 h2
  have o1 := runCalls_data_origin cs World.initial w e1 a hrun h1
  have o2 := runCalls_data_origin cs World.initial w e2 a hrun h2
  have hfresh : ∀ e : EnvId, (World.initial.heap e).data ≠ some a := fun e hd => by
    simp [World.initial, MujocoEnv.new] at hd
  exact Option.some.inj (hex (some a) (some e1) (some e2)
    (o1.resolve_left (hfresh e1)) (o2.resolve_left (hfresh e2)))

/-- C4 amended, at a concrete input: environment `0` is given handle `7`,
environment `1` handle `8`, then environment `0` handle `9`. -/
theorem C4_no_shared_data_of_exclusive_witness :
    ∃ w, runCalls World.initial
        [RegistryCall.assignData (some 7) (some 0), RegistryCall.assignData (some 8) (some 1),
          RegistryCall.assignData (some 9) (some 0)] = some w ∧
      NoSharedData w :=
  ⟨_, rfl, C4_no_shared_data_of_exclusive
    [RegistryCall.assignData (some 7) (some 0), RegistryCall.assignData (some 8) (some 1),
      RegistryCall.assignData (some 9) (some 0)] _ rfl
    (by
      intro d e1 e2 m1 m2
      simp only [List.mem_cons, RegistryCall.assignData.injEq, List.mem_singleton,
        List.not_mem_nil, or_false] at m1 m2
      rcases m1 with ⟨rfl, rfl⟩ | ⟨rfl, rfl⟩ | ⟨rfl, rfl⟩ <;>
        rcases m2 with ⟨h, rfl⟩ | ⟨h, rfl⟩ | ⟨h, rfl⟩ <;> first | rfl | exact absurd h (by decide))⟩

/-! ## Plugin dispatch lemmas -/

section Dispatch

variable {σ Config : Type}

/-- A range-for loop that makes one recorded call per element threads the
external state through the calls in order, one call per element, and appends
one record per element to the trace. -/
theorem foldl_called_eq (f : σ → MujocoPluginPtr → σ) (ev : MujocoPluginPtr → PluginCall)
    (ps : List MujocoPluginPtr) (s : Sim σ) :
    ps.foldl (fun s p => s.called (f s.ext p) (ev p)) s =
      { ext := ps.foldl f s.ext, trace := s.trace ++ ps.map ev } := by
  induction ps generalizing s with
  | nil => cases s; simp
  | cons p rest ih =>
    rw [List.foldl_cons, ih]
    simp [Sim.called]

/-- What the loop of `reload` does: one `safe_load(model, data)` per plugin,
in order, and the plugins whose call returned `true` appended to `ready`. -/
theorem reloadLoop_calls (api : PluginApi σ Config) (model : mjModelPtr) (data : mjDataPtr)
    (ps ready : List MujocoPluginPtr) (s : Sim σ) :
    ∃ calls : List PluginCall,
      (reloadLoop api model data ps ready s).2.trace = s.trace ++ calls ∧
      calls.map PluginCall.plugin = ps ∧
      (∀ c ∈ calls, ∃ x, c = PluginCall.safe_load c.plugin model data
        (api.safe_load x c.plugin model data).1) ∧
      (reloadLoop api model data ps ready s).1 =
        ready ++ (calls.filter PluginCall.loadSucceeded).map PluginCall.plugin := by
  induction ps generalizing ready s with
  | nil => exact ⟨[], by simp [reloadLoop]⟩
  | cons p rest ih =>
    cases hok : (api.safe_load s.ext p model data).1 with
    | true =>
      obtain ⟨calls, h1, h2, h3, h4⟩ := ih (ready ++ [p])
        (s.called (api.safe_load s.ext p model data).2 (.safe_load p model data true))
      have hstep : reloadLoop api model data (p :: rest) ready s =
          reloadLoop api model data rest (ready ++ [p])
            (s.called (api.safe_load s.ext p model data).2 (.safe_load p model data true)) := by
        simp only [reloadLoop, hok, if_true]
      refine ⟨PluginCall.safe_load p model data true :: calls, ?_, ?_, ?_, ?_⟩
      · rw [hstep, h1]
        simp [Sim.called]
      · simp [h2, PluginCall.plugin]
      · intro c hc
        rcases List.mem_cons.mp hc with rfl | hc
        · exact ⟨s.ext, by simp [PluginCall.plugin, hok]⟩
        · exact h3 c hc
      · rw [hstep, h4]
        simp [PluginCall.loadSucceeded, PluginCall.plugin]
    | false =>
      obtain ⟨calls, h1, h2, h3, h4⟩ := ih ready
        (s.called (api.safe_load s.ext p model data).2 (.safe_load p model data false))
      have hstep : reloadLoop api model data (p :: rest) ready s =
          reloadLoop api model data rest ready
            (s.called (api.safe_load s.ext p model data).2 (.safe_load p model data false)) := by
        simp [reloadLoop, hok]
      refine ⟨PluginCall.safe_load p model data false :: calls, ?_, ?_, ?_, ?_⟩
      · rw [hstep, h1]
        simp [Sim.called]
      · simp [h2, PluginCall.plugin]
      · intro c hc
        rcases List.mem_cons.mp hc with rfl | hc
        · exact ⟨s.ext, by simp [PluginCall.plugin, hok]⟩
        · exact h3 c hc
      · rw [hstep, h4]
        simp [PluginCall.loadSucceeded]

/-- What `reload` does, in terms of the calls it adds to the trace. -/
theorem MujocoEnv.reload_calls (api : PluginApi σ Config) (e : MujocoEnv) (s : Sim σ) :
    ∃ calls : List PluginCall,
      (e.reload api s).2.trace = s.trace ++ calls ∧
      calls.map PluginCall.plugin = (e.reload api s).1.plugins ∧
      (∀ c ∈ calls, ∃ x, c = PluginCall.safe_load c.plugin e.model e.data
        (api.safe_load x c.plugin e.model e.data).1) ∧
      (e.reload api s).1.cb_ready_plugins =
        (calls.filter PluginCall.loadSucceeded).map PluginCall.plugin := by
  obtain ⟨calls, h1, h2, h3, h4⟩ := reloadLoop_calls api e.model e.data
    (match (api.parsePlugins s.ext e.nh).1 with
      | some plugin_config =>
        api.registerPlugins (api.parsePlugins s.ext e.nh).2 e.nh plugin_config []
      | none => ([], (api.parsePlugins s.ext e.nh).2)).1 []
    { s with ext := (match (api.parsePlugins s.ext e.nh).1 with
      | some plugin_config =>
        api.registerPlugins (api.parsePlugins s.ext e.nh).2 e.nh plugin_config []
      | none => ([], (api.parsePlugins s.ext e.nh).2)).2 }
  refine ⟨calls, ?_, ?_, ?_, ?_⟩
  · simpa [MujocoEnv.reload] using h1
  · simpa [MujocoEnv.reload] using h2
  · exact h3
  · simpa [MujocoEnv.reload] using h4

/-- After `reload`, `ready` is a subsequence of `plugins`. -/
theorem MujocoEnv.reload_sublist (api : PluginApi σ Config) (e : MujocoEnv) (s : Sim σ) :
    List.Sublist (e.reload api s).1.cb_ready_plugins (e.reload api s).1.plugins := by
  obtain ⟨calls, _, h2, _, h4⟩ := MujocoEnv.reload_calls api e s
  rw [h4, ← h2]
  exact (List.filter_sublist calls).map PluginCall.plugin

theorem ReadyWithinPlugins.of_sublist {e : MujocoEnv}
    (h : List.Sublist e.cb_ready_plugins e.plugins) : ReadyWithinPlugins e :=
  ⟨h.subset, h.length_le⟩

/-- Every member function other than `reload` leaves the members of the
environment as they were. -/
theorem EnvOp.exec_env (api : PluginApi σ Config) (st : MujocoEnv × Sim σ) (op : EnvOp)
    (hop : op ≠ EnvOp.reload) : (op.exec api st).1 = st.1 := by
  cases op with
  | reload => exact absurd rfl hop
  | runRenderCbs scene =>
    simp only [EnvOp.exec, MujocoEnv.runRenderCbs]
    split <;> rfl
  | _ => rfl

/-- Every member function preserves `ready ⊆ plugins`, `|ready| ≤ |plugins|`. -/
theorem EnvOp.exec_preserves (api : PluginApi σ Config) (st : MujocoEnv × Sim σ) (op : EnvOp)
    (h : ReadyWithinPlugins st.1) : ReadyWithinPlugins (op.exec api st).1 := by
  by_cases hop : op = EnvOp.reload
  · subst hop
    exact ReadyWithinPlugins.of_sublist (MujocoEnv.reload_sublist api st.1 st.2)
  · rw [EnvOp.exec_env api st op hop]
    exact h

theorem runOps_preserves (api : PluginApi σ Config) (ops : List EnvOp)
    (st : MujocoEnv × Sim σ) (h : ReadyWithinPlugins st.1) :
    ReadyWithinPlugins (runOps api st ops).1 := by
  induction ops generalizing st with
  | nil => exact h
  | cons op rest ih =>
    simp only [runOps, List.foldl_cons]
    exact ih _ (EnvOp.exec_preserves api st op h)

end Dispatch

/-! ## Plugin dispatch claims -/

/-- C6: `ready ⊆ plugins` and `|ready| ≤ |plugins|` hold after every
`reload()`, in every state reached from a freshly constructed environment by
any sequence of member-function calls, and every member function preserves
them. -/
theorem C6_ready_within_plugins {σ Config : Type} (api : PluginApi σ Config) :
    (∀ (e : MujocoEnv) (s : Sim σ), ReadyWithinPlugins (e.reload api s).1) ∧
    (∀ (name : String) (s : Sim σ) (ops : List EnvOp),
      ReadyWithinPlugins (runOps api (MujocoEnv.new name, s) ops).1) ∧
    (∀ (st : MujocoEnv × Sim σ) (op : EnvOp),
      ReadyWithinPlugins st.1 → ReadyWithinPlugins (op.exec api st).1) := by
  refine ⟨?_, ?_, ?_⟩
  · intro e s
    exact ReadyWithinPlugins.of_sublist (MujocoEnv.reload_sublist api e s)
  · intro name s ops
    exact runOps_preserves api ops _ ⟨by simp [MujocoEnv.new], by simp [MujocoEnv.new]⟩
  · intro st op h
    exact EnvOp.exec_preserves api st op h

/-- C7: `reset()` calls `safe_reset` exactly once on every plugin in
`plugins`, in registration order, whatever `cb_ready_plugins` holds: the
external state it leaves is the one these calls produce, threaded in that
order, and the trace grows by one record per plugin. With the wrapper of the
specification, that is the plugin's own `reset()` run once on every plugin.
When `reload()` has registered `[A, B]` with A failing and B succeeding to
load, `ready = [B]` and a subsequent `reset()` resets A, then B. -/
theorem C7_reset_every_plugin {σ Config : Type} (api : PluginApi σ Config)
    (e : MujocoEnv) (s : Sim σ) :
    (e.reset api s).2.trace = s.trace ++ e.plugins.map PluginCall.safe_reset ∧
    (e.reset api s).2.ext = e.plugins.foldl (fun x p => api.safe_reset x p) s.ext ∧
    (∀ reset : σ → MujocoPluginPtr → σ, api.safe_reset = safe_reset reset →
      (e.reset api s).2.ext = e.plugins.foldl reset s.ext) ∧
    (∀ A B : MujocoPluginPtr,
      (e.reload api s).1.plugins = [A, B] →
      (∀ x m d, (api.safe_load x A m d).1 = false) →
      (∀ x m d, (api.safe_load x B m d).1 = true) →
      (e.reload api s).1.cb_ready_plugins = [B] ∧
      ((e.reload api s).1.reset api (e.reload api s).2).2.trace =
        (e.reload api s).2.trace ++ [PluginCall.safe_reset A, PluginCall.safe_reset B] ∧
      ((e.reload api s).1.reset api (e.reload api s).2).2.ext =
        api.safe_reset (api.safe_reset (e.reload api s).2.ext A) B) := by
  have hreset : ∀ (e1 : MujocoEnv) (s1 : Sim σ), (e1.reset api s1).2 =
      { ext := e1.plugins.foldl (fun x p => api.safe_reset x p) s1.ext,
        trace := s1.trace ++ e1.plugins.map PluginCall.safe_reset } := fun e1 s1 =>
    foldl_called_eq (fun x p => api.safe_reset x p) PluginCall.safe_reset e1.plugins s1
  refine ⟨by rw [hreset], by rw [hreset], ?_, ?_⟩
  · intro reset hwrap
    rw [hreset, hwrap]
    rfl
  intro A B hps hA hB
  refine ⟨?_, ?_, ?_⟩
  · obtain ⟨calls, -, h2, h3, h4⟩ := MujocoEnv.reload_calls api e s
    rw [hps] at h2
    rcases calls with _ | ⟨c1, _ | ⟨c2, _ | ⟨c3, t⟩⟩⟩
    · simp at h2
    · simp at h2
    · simp only [List.map_cons, List.map_nil, List.cons.injEq, and_true] at h2
      obtain ⟨x1, hc1⟩ := h3 c1 (by simp)
      obtain ⟨x2, hc2⟩ := h3 c2 (by simp)
      rw [h2.1, hA] at hc1
      rw [h2.2, hB] at hc2
      rw [h4, hc1, hc2]
      simp [PluginCall.loadSucceeded, PluginCall.plugin]
    · simp at h2
  · rw [hreset, hps]
    rfl
  · rw [hreset, hps]
    rfl

/-- C7 in the scenario of the specification: plugin A (address `0`) fails to
load and plugin B (address `1`) loads; the external state lists the plugins
whose own `reset()` has run. After `reload()` and `reset()` it is `[A, B]`. -/
theorem C7_reset_every_plugin_scenario :
    (scenarioResetStart.1.reload scenarioResetApi scenarioResetStart.2).1.plugins = [0, 1] ∧
    (scenarioResetStart.1.reload scenarioResetApi scenarioResetStart.2).1.cb_ready_plugins =
      [1] ∧
    (scenarioResetStart.1.reload scenarioResetApi scenarioResetStart.2).2.ext = [] ∧
    ((scenarioResetStart.1.reload scenarioResetApi scenarioResetStart.2).1.reset
        scenarioResetApi
        (scenarioResetStart.1.reload scenarioResetApi scenarioResetStart.2).2).2.trace =
      (scenarioResetStart.1.reload scenarioResetApi scenarioResetStart.2).2.trace ++
        [PluginCall.safe_reset 0, PluginCall.safe_reset 1] ∧
    ((scenarioResetStart.1.reload scenarioResetApi scenarioResetStart.2).1.reset
        scenarioResetApi
        (scenarioResetStart.1.reload scenarioResetApi scenarioResetStart.2).2).2.ext =
      [0, 1] :=
  have h := (C7_reset_every_plugin scenarioResetApi scenarioResetStart.1
    scenarioResetStart.2).2.2.2 0 1 rfl (fun _ _ _ => rfl) (fun _ _ _ => rfl)
  have hx := (C7_reset_every_plugin scenarioResetApi
    (scenarioResetStart.1.reload scenarioResetApi scenarioResetStart.2).1
    (scenarioResetStart.1.reload scenarioResetApi scenarioResetStart.2).2).2.2.1
    (fun x p => x ++ [p]) rfl
  ⟨rfl, h.1, rfl, h.2.1, hx⟩

/-- C8, refuted as stated: after a `reload()` in which plugin A (address `0`)
failed to load and plugin B (address `1`) loaded, `getPlugins()` returns
`[A, B]` while the ready list is `[B]`. -/
theorem C8_getPlugins_counterexample :
    scenarioLoaded.1.getPlugins = [0, 1] ∧
    scenarioLoaded.1.cb_ready_plugins = [1] ∧
    PluginCall.safe_load 0 none none false ∈ scenarioLoaded.2.trace ∧
    scenarioLoaded.1.getPlugins ≠ scenarioLoaded.1.cb_ready_plugins := by
  decide

/-- C8, amended: `getPlugins()` returns the `plugins` list; after a
`reload()` that is every plugin `safe_load` was called on, in registration
order, whether or not the call succeeded, and the ready list is a subsequence
of the result. -/
theorem C8_getPlugins_returns_plugins {σ Config : Type} (api : PluginApi σ Config)
    (e : MujocoEnv) (s : Sim σ) :
    e.getPlugins = e.plugins ∧
    (∃ calls : List PluginCall,
      (e.reload api s).2.trace = s.trace ++ calls ∧
      (e.reload api s).1.getPlugins = calls.map PluginCall.plugin) ∧
    List.Sublist (e.reload api s).1.cb_ready_plugins (e.reload api s).1.getPlugins := by
  refine ⟨rfl, ?_, MujocoEnv.reload_sublist api e s⟩
  obtain ⟨calls, h1, h2, -, -⟩ := MujocoEnv.reload_calls api e s
  exact ⟨calls, h1, h2.symm⟩

/-- C9: each of `runControlCbs`, `runPassiveCbs` and `runLastStageCbs` calls
its hook with `(model, data)` exactly once on each plugin of
`cb_ready_plugins`, in order, and makes no other call: the external state it
leaves is the one these hook calls produce, threaded in that order, the trace
grows by one record per ready plugin, and the environment is as it was. A
plugin with no successful `safe_load` in a `reload()` is not in the ready list
that `reload()` leaves, so it receives none of these calls. -/
theorem C9_stage_callbacks_on_ready {σ Config : Type} (api : PluginApi σ Config)
    (e : MujocoEnv) (s : Sim σ) :
    ((e.runControlCbs api s).2.trace =
        s.trace ++ e.cb_ready_plugins.map (fun p => PluginCall.controlCallback p e.model e.data) ∧
      (e.runControlCbs api s).2.ext =
        e.cb_ready_plugins.foldl (fun x p => api.controlCallback x p e.model e.data) s.ext ∧
      (e.runControlCbs api s).1 = e) ∧
    ((e.runPassiveCbs api s).2.trace =
        s.trace ++ e.cb_ready_plugins.map (fun p => PluginCall.passiveCallback p e.model e.data) ∧
      (e.runPassiveCbs api s).2.ext =
        e.cb_ready_plugins.foldl (fun x p => api.passiveCallback x p e.model e.data) s.ext ∧
      (e.runPassiveCbs api s).1 = e) ∧
    ((e.runLastStageCbs api s).2.trace =
        s.trace ++
          e.cb_ready_plugins.map (fun p => PluginCall.lastStageCallback p e.model e.data) ∧
      (e.runLastStageCbs api s).2.ext =
        e.cb_ready_plugins.foldl (fun x p => api.lastStageCallback x p e.model e.data) s.ext ∧
      (e.runLastStageCbs api s).1 = e) ∧
    (∃ calls : List PluginCall,
      (e.reload api s).2.trace = s.trace ++ calls ∧
      (∀ c ∈ calls, ∃ x, c = PluginCall.safe_load c.plugin e.model e.data
        (api.safe_load x c.plugin e.model e.data).1) ∧
      ∀ p : MujocoPluginPtr,
        (∀ c ∈ calls, c.plugin = p → c.loadSucceeded = false) →
        p ∉ (e.reload api s).1.cb_ready_plugins) := by
  have hc : (e.runControlCbs api s).2 =
      { ext := e.cb_ready_plugins.foldl (fun x p => api.controlCallback x p e.model e.data)
          s.ext,
        trace := s.trace ++
          e.cb_ready_plugins.map (fun p => PluginCall.controlCallback p e.model e.data) } :=
    foldl_called_eq (fun x p => api.controlCallback x p e.model e.data)
      (fun p => PluginCall.controlCallback p e.model e.data) e.cb_ready_plugins s
  have hp : (e.runPassiveCbs api s).2 =
      { ext := e.cb_ready_plugins.foldl (fun x p => api.passiveCallback x p e.model e.data)
          s.ext,
        trace := s.trace ++
          e.cb_ready_plugins.map (fun p => PluginCall.passiveCallback p e.model e.data) } :=
    foldl_called_eq (fun x p => api.passiveCallback x p e.model e.data)
      (fun p => PluginCall.passiveCallback p e.model e.data) e.cb_ready_plugins s
  have hl : (e.runLastStageCbs api s).2 =
      { ext := e.cb_ready_plugins.foldl (fun x p => api.lastStageCallback x p e.model e.data)
          s.ext,
        trace := s.trace ++
          e.cb_ready_plugins.map (fun p => PluginCall.lastStageCallback p e.model e.data) } :=
    foldl_called_eq (fun x p => api.lastStageCallback x p e.model e.data)
      (fun p => PluginCall.lastStageCallback p e.model e.data) e.cb_ready_plugins s
  refine ⟨⟨by rw [hc], by rw [hc], rfl⟩, ⟨by rw [hp], by rw [hp], rfl⟩,
    ⟨by rw [hl], by rw [hl], rfl⟩, ?_⟩
  obtain ⟨calls, h1, -, h3, h4⟩ := MujocoEnv.reload_calls api e s
  refine ⟨calls, h1, h3, ?_⟩
  intro p hfail hp
  rw [h4] at hp
  obtain ⟨c, hc, hcp⟩ := List.mem_map.mp hp
  have hmem := List.mem_filter.mp hc
  have := hfail c hmem.1 hcp
  rw [hmem.2] at this
  exact Bool.noConfusion this

/-- C11, refuted as stated: destroying an environment that holds a model, a
state object and two plugins releases the model before the state object,
while the claimed order releases the state object first. -/
theorem C11_release_order_counterexample :
    (scenarioLive.destroy.1.map Prod.fst).filter
        (fun st => decide (st ≠ DtorStmt.ctrlnoise_null)) =
      [DtorStmt.cb_ready_plugins_clear, DtorStmt.plugins_clear, DtorStmt.model_reset,
        DtorStmt.data_reset, DtorStmt.nh_reset] ∧
    (scenarioLive.destroy.1.map Prod.fst).filter
        (fun st => decide (st ≠ DtorStmt.ctrlnoise_null)) ≠
      specReleaseOrder := by
  decide

/-- C11, amended: destroying an environment performs its release steps in
this order: clear ready, clear plugins, release the model reference, release
the state object, null the control-noise pointer, release the node handle;
afterwards every one of these members is empty and the name is kept. -/
theorem C11_release_order (e : MujocoEnv) :
    e.destroy.1.map Prod.fst =
      [DtorStmt.cb_ready_plugins_clear, DtorStmt.plugins_clear, DtorStmt.model_reset,
        DtorStmt.data_reset, DtorStmt.ctrlnoise_null, DtorStmt.nh_reset] ∧
    e.destroy.2 =
      { model := none, data := none, ctrlnoise := none, nh := none, name := e.name,
        plugins := [], cb_ready_plugins := [] } := by
  exact ⟨rfl, rfl⟩

/-- C12: in the destruction sequence of any environment, at the moment the
state object or the model is released both `plugins` and `cb_ready_plugins`
are already empty, and the two clearing statements come before both
releases. -/
theorem C12_plugins_dropped_before_release (e : MujocoEnv) (st : DtorStmt)
    (before : MujocoEnv) (hmem : (st, before) ∈ e.destroy.1)
    (hrel : st = DtorStmt.model_reset ∨ st = DtorStmt.data_reset) :
    before.plugins = [] ∧ before.cb_ready_plugins = [] ∧
    (e.destroy.1.map Prod.fst).take 2 =
      [DtorStmt.cb_ready_plugins_clear, DtorStmt.plugins_clear] ∧
    st ∈ (e.destroy.1.map Prod.fst).drop 2 := by
  simp only [MujocoEnv.destroy, MujocoEnv.destructorBody, runDtor, List.mem_cons,
    Prod.mk.injEq, List.not_mem_nil, or_false] at hmem
  rcases hrel with rfl | rfl
  · rcases hmem with ⟨h, -⟩ | ⟨h, -⟩ | ⟨-, rfl⟩ | ⟨h, -⟩ | ⟨h, -⟩ | ⟨h, -⟩ <;>
      first
        | exact absurd h (by decide)
        | exact ⟨rfl, rfl, rfl, by simp [MujocoEnv.destroy, MujocoEnv.destructorBody, runDtor]⟩
  · rcases hmem with ⟨h, -⟩ | ⟨h, -⟩ | ⟨h, -⟩ | ⟨-, rfl⟩ | ⟨h, -⟩ | ⟨h, -⟩ <;>
      first
        | exact absurd h (by decide)
        | exact ⟨rfl, rfl, rfl, by simp [MujocoEnv.destroy, MujocoEnv.destructorBody, runDtor]⟩

/-- C12 at a concrete input: an environment with plugins `[A, B]`, ready list
`[B]`, a model and a state object, at the moment `data.reset()` runs. -/
theorem C12_plugins_dropped_before_release_witness :
    scenarioLive.plugins = [0, 1] ∧ scenarioLive.cb_ready_plugins = [1] ∧
    ∃ before : MujocoEnv,
      (DtorStmt.data_reset, before) ∈ scenarioLive.destroy.1 ∧
      before.data = some 2 ∧ before.plugins = [] ∧ before.cb_ready_plugins = [] :=
  have hmem : (DtorStmt.data_reset,
      DtorStmt.exec (DtorStmt.exec (DtorStmt.exec scenarioLive
        DtorStmt.cb_ready_plugins_clear) DtorStmt.plugins_clear) DtorStmt.model_reset) ∈
      scenarioLive.destroy.1 := by
    simp [MujocoEnv.destroy, MujocoEnv.destructorBody, runDtor]
  have h := C12_plugins_dropped_before_release _ _ _ hmem (Or.inr rfl)
  ⟨rfl, rfl, _, hmem, rfl, h.1, h.2.1⟩

/-! ## Provisioning lemmas -/

/-- `bootstrapNamespace` writes no member of the environment. -/
theorem MujocoEnvParallel.bootstrapNamespace_env {ρ : Type} (api : RosApi ρ)
    (e : MujocoEnvParallel) (r : Ros ρ) : (e.bootstrapNamespace api r).1 = e := by
  simp only [MujocoEnvParallel.bootstrapNamespace]
  split
  · rfl
  · split <;> rfl

/-- The first interaction of `bootstrapNamespace` is the 5 second wait for
`/bootstrap_ns`. -/
theorem MujocoEnvParallel.bootstrapNamespace_waits {ρ : Type} (api : RosApi ρ)
    (e : MujocoEnvParallel) (r : Ros ρ) :
    ∃ (ok : Bool) (rest : List RosCall),
      (e.bootstrapNamespace api r).2.trace =
        r.trace ++ RosCall.waitForService "/bootstrap_ns" 5 ok :: rest := by
  refine ⟨(api.waitForService r.ext "/bootstrap_ns" 5).1, ?_⟩
  simp only [MujocoEnvParallel.bootstrapNamespace]
  split
  · exact ⟨_, by simp only [Ros.called, List.append_assoc]; rfl⟩
  · split
    · exact ⟨_, by simp only [Ros.called, List.append_assoc]; rfl⟩
    · exact ⟨_, by simp only [Ros.called, List.append_assoc]; rfl⟩

/-! ## Provisioning claims -/

/-- C13: `bootstrapNamespace()` always returns, with the environment as it
was. It waits 5 seconds for `/bootstrap_ns`. When that wait fails it logs an
error and sends no request: the ROS side is left as the wait left it. When the
wait succeeds it sends exactly one request, carrying this environment's name,
launchfile and launch arguments: the ROS side is left as that one request left
it, the recorded answer is the answer of the service, and a failed request
adds only an error to the log. -/
theorem C13_bootstrapNamespace {ρ : Type} (api : RosApi ρ) (e : MujocoEnvParallel)
    (r : Ros ρ) :
    (e.bootstrapNamespace api r).1 = e ∧
    ((api.waitForService r.ext "/bootstrap_ns" 5).1 = false →
      (e.bootstrapNamespace api r).2 =
        { ext := (api.waitForService r.ext "/bootstrap_ns" 5).2,
          trace := r.trace ++ [RosCall.waitForService "/bootstrap_ns" 5 false,
            RosCall.ROS_ERROR ErrorMsg.bootstrapTimeout] }) ∧
    ((api.waitForService r.ext "/bootstrap_ns" 5).1 = true →
      (e.bootstrapNamespace api r).2 =
        { ext := (api.callBootstrapNS (api.waitForService r.ext "/bootstrap_ns" 5).2
            "/bootstrap_ns"
            { ros_namespace := e.name, launchfile := e.launchfile,
              args := e.launch_args }).2,
          trace := r.trace ++ [RosCall.waitForService "/bootstrap_ns" 5 true,
            RosCall.callBootstrapNS "/bootstrap_ns"
              { ros_namespace := e.name, launchfile := e.launchfile, args := e.launch_args }
              (api.callBootstrapNS (api.waitForService r.ext "/bootstrap_ns" 5).2
                "/bootstrap_ns"
                { ros_namespace := e.name, launchfile := e.launchfile,
                  args := e.launch_args }).1] ++
            (if (api.callBootstrapNS (api.waitForService r.ext "/bootstrap_ns" 5).2
                "/bootstrap_ns"
                { ros_namespace := e.name, launchfile := e.launchfile,
                  args := e.launch_args }).1 = true then []
              else [RosCall.ROS_ERROR (ErrorMsg.bootstrapFailed e.name)]) }) := by
  refine ⟨MujocoEnvParallel.bootstrapNamespace_env api e r, ?_, ?_⟩
  · intro hw
    simp [MujocoEnvParallel.bootstrapNamespace, hw, Ros.called]
  · intro hw
    cases hok : (api.callBootstrapNS (api.waitForService r.ext "/bootstrap_ns" 5).2
        "/bootstrap_ns"
        { ros_namespace := e.name, launchfile := e.launchfile, args := e.launch_args }).1 with
    | true => simp [MujocoEnvParallel.bootstrapNamespace, hw, hok, Ros.called]
    | false => simp [MujocoEnvParallel.bootstrapNamespace, hw, hok, Ros.called]

/-- C13 at two concrete inputs: a service that never becomes reachable (one
interaction, no request), and a reachable service that answers the request
with failure (two interactions, the second the request). -/
theorem C13_bootstrapNamespace_scenario :
    (scenarioParallel.bootstrapNamespace (scenarioRos false true) { ext := 0, trace := [] }).2 =
      { ext := 1,
        trace := [RosCall.waitForService "/bootstrap_ns" 5 false,
          RosCall.ROS_ERROR ErrorMsg.bootstrapTimeout] } ∧
    (scenarioParallel.bootstrapNamespace (scenarioRos true false) { ext := 0, trace := [] }).2 =
      { ext := 2,
        trace := [RosCall.waitForService "/bootstrap_ns" 5 true,
          RosCall.callBootstrapNS "/bootstrap_ns"
            { ros_namespace := "ns", launchfile := "robot.launch", args := ["verbose"] }
            false,
          RosCall.ROS_ERROR (ErrorMsg.bootstrapFailed "ns")] } :=
  ⟨(C13_bootstrapNamespace (scenarioRos false true) scenarioParallel
      { ext := 0, trace := [] }).2.1 rfl,
    (C13_bootstrapNamespace (scenarioRos true false) scenarioParallel
      { ext := 0, trace := [] }).2.2 rfl⟩

/-- C14: destroying a parallel environment sends exactly one request, to
`/shutdown_ns`, carrying this environment's name: the ROS side is left as that
one request left it and the recorded answer is the answer of the service.
Whatever that answer, the base class destructor then runs in full and leaves
`cb_ready_plugins`, `plugins`, `data` and `model` empty. -/
theorem C14_parallel_destroy {ρ : Type} (api : RosApi ρ) (e : MujocoEnvParallel)
    (r : Ros ρ) :
    (e.destroy api r).2 =
      { ext := (api.callShutdownNS r.ext "/shutdown_ns" { ros_namespace := e.name }).2,
        trace := r.trace ++ [RosCall.callShutdownNS "/shutdown_ns" { ros_namespace := e.name }
          (api.callShutdownNS r.ext "/shutdown_ns" { ros_namespace := e.name }).1] } ∧
    (e.destroy api r).1 = e.toMujocoEnv.destroy ∧
    (e.destroy api r).1.1.map Prod.fst = MujocoEnv.destructorBody ∧
    (e.destroy api r).1.2.cb_ready_plugins = [] ∧
    (e.destroy api r).1.2.plugins = [] ∧
    (e.destroy api r).1.2.data = none ∧
    (e.destroy api r).1.2.model = none := by
  exact ⟨rfl, rfl, rfl, rfl, rfl, rfl, rfl⟩

/-- C14 at a concrete input: the teardown request is answered with failure;
one interaction has reached the ROS side and the base cleanup has run. -/
theorem C14_parallel_destroy_scenario :
    (scenarioParallel.destroy (scenarioRos true false) { ext := 0, trace := [] }).2 =
      { ext := 1,
        trace := [RosCall.callShutdownNS "/shutdown_ns" { ros_namespace := "ns" } false] } ∧
    (scenarioParallel.destroy (scenarioRos true false) { ext := 0, trace := [] }).1.1.map
        Prod.fst = MujocoEnv.destructorBody :=
  ⟨(C14_parallel_destroy (scenarioRos true false) scenarioParallel
      { ext := 0, trace := [] }).1,
    (C14_parallel_destroy (scenarioRos true false) scenarioParallel
      { ext := 0, trace := [] }).2.2.1⟩

/-- C19: the constructor of `MujocoEnvParallel` stores the namespace, the
launchfile and the launch arguments; with an empty launchfile it makes no
interaction with ROS at all, whatever the launch arguments; with a non-empty
launchfile it runs `bootstrapNamespace()`, whose first interaction is the
wait for `/bootstrap_ns`. -/
theorem C19_parallel_constructor {ρ : Type} (api : RosApi ρ) (ros_ns launchfile : String)
    (launch_args : List String) (r : Ros ρ) :
    ((MujocoEnvParallel.new api ros_ns launchfile launch_args r).1.name = ros_ns ∧
      (MujocoEnvParallel.new api ros_ns launchfile launch_args r).1.launchfile = launchfile ∧
      (MujocoEnvParallel.new api ros_ns launchfile launch_args r).1.launch_args =
        launch_args) ∧
    (launchfile = "" → (MujocoEnvParallel.new api ros_ns launchfile launch_args r).2 = r) ∧
    (launchfile ≠ "" →
      (MujocoEnvParallel.new api ros_ns launchfile launch_args r) =
        MujocoEnvParallel.bootstrapNamespace api
          { toMujocoEnv := MujocoEnv.new ros_ns, loop_thread := none, stop_loop := none,
            launchfile := launchfile, launch_args := launch_args } r ∧
      ∃ (ok : Bool) (rest : List RosCall),
        (MujocoEnvParallel.new api ros_ns launchfile launch_args r).2.trace =
          r.trace ++ RosCall.waitForService "/bootstrap_ns" 5 ok :: rest) ∧
    ((∃ (ok : Bool) (rest : List RosCall),
        (MujocoEnvParallel.new api ros_ns launchfile launch_args r).2.trace =
          r.trace ++ RosCall.waitForService "/bootstrap_ns" 5 ok :: rest) →
      launchfile ≠ "") := by
  refine ⟨?_, ?_, ?_, ?_⟩
  · by_cases hl : launchfile = ""
    · simp [MujocoEnvParallel.new, hl, MujocoEnv.new]
    · simp [MujocoEnvParallel.new, hl, MujocoEnvParallel.bootstrapNamespace_env, MujocoEnv.new]
  · intro hl
    simp [MujocoEnvParallel.new, hl]
  · intro hl
    have hnew : MujocoEnvParallel.new api ros_ns launchfile launch_args r =
        MujocoEnvParallel.bootstrapNamespace api
          { toMujocoEnv := MujocoEnv.new ros_ns, loop_thread := none, stop_loop := none,
            launchfile := launchfile, launch_args := launch_args } r := by
      simp [MujocoEnvParallel.new, hl]
    refine ⟨hnew, ?_⟩
    rw [hnew]
    exact MujocoEnvParallel.bootstrapNamespace_waits api _ r
  · rintro ⟨ok, rest, htr⟩ hl
    simp [MujocoEnvParallel.new, hl] at htr

/-! ## Frame and persistence claims -/

/-- C17: `reset()` returns the environment with every member as it was, in
particular `plugins`, `cb_ready_plugins`, `model` and `data`; so do
`runControlCbs`, `runPassiveCbs`, `runRenderCbs` and `runLastStageCbs`. -/
theorem C17_reset_and_stages_frame {σ Config : Type} (api : PluginApi σ Config)
    (e : MujocoEnv) (scene : mjvScene) (s : Sim σ) :
    ((e.reset api s).1.plugins = e.plugins ∧
      (e.reset api s).1.cb_ready_plugins = e.cb_ready_plugins ∧
      (e.reset api s).1.model = e.model ∧
      (e.reset api s).1.data = e.data) ∧
    (e.reset api s).1 = e ∧
    (e.runControlCbs api s).1 = e ∧
    (e.runPassiveCbs api s).1 = e ∧
    (e.runRenderCbs api scene s).1 = e ∧
    (e.runLastStageCbs api s).1 = e := by
  refine ⟨⟨rfl, rfl, rfl, rfl⟩, rfl, rfl, rfl, ?_, rfl⟩
  exact EnvOp.exec_env api (e, s) (EnvOp.runRenderCbs scene) (by simp)

/-- After a completed `assignData(d, e1)`, `getEnv(d)` returns `e1`. -/
theorem environments.getEnv_assignData_same (w w1 : World) (d : mjDataRaw) (e1 : EnvId)
    (h : environments.assignData w d (some e1) = some w1) :
    (environments.getEnv w1 d).1 = some e1 := by
  simp only [environments.assignData, Option.some.injEq] at h
  subst h
  rw [environments.getEnv_fst]
  simp [World.resetData, StdMap.find_subscriptAssign_same]

/-- A completed `assignData(d, e1)` does not change what `getEnv` returns for
any other handle. -/
theorem environments.getEnv_assignData_other (w w1 : World) (d h : mjDataRaw) (e1 : EnvId)
    (ha : environments.assignData w d (some e1) = some w1) (hne : h ≠ d) :
    (environments.getEnv w1 h).1 = (environments.getEnv w h).1 := by
  simp only [environments.assignData, Option.some.injEq] at ha
  subst ha
  rw [environments.getEnv_fst, environments.getEnv_fst]
  simp [World.resetData, StdMap.find_subscriptAssign_other _ _ _ _ hne]

/-- A handle that is mapped to an environment stays mapped through any
completed run of registry calls, to the environment last assigned to it. -/
theorem runCalls_getEnv_lastAssigned (cs : List RegistryCall) (w w1 : World) (h : mjDataRaw)
    (e : EnvId) (hget : (environments.getEnv w h).1 = some e)
    (hrun : runCalls w cs = some w1) :
    ∃ e1 : EnvId, (environments.getEnv w1 h).1 = some e1 ∧
      lastAssigned h cs (some e) = some e1 := by
  induction cs generalizing w e with
  | nil =>
    simp only [runCalls, Option.some.injEq] at hrun
    subst hrun
    exact ⟨e, hget, rfl⟩
  | cons c rest ih =>
    cases c with
    | getEnv d =>
      simp only [runCalls, RegistryCall.exec, environments.getEnv_snd] at hrun
      exact ih w e hget hrun
    | assignData d env =>
      cases env with
      | none => simp [runCalls, RegistryCall.exec, environments.assignData] at hrun
      | some e2 =>
        cases hstep : environments.assignData w d (some e2) with
        | none => simp [environments.assignData] at hstep
        | some w2 =>
          simp only [runCalls, RegistryCall.exec, hstep] at hrun
          by_cases hd : d = h
          · subst hd
            have := ih w2 e2 (environments.getEnv_assignData_same w w2 d e2 hstep) hrun
            simpa [lastAssigned] using this
          · have hsame := environments.getEnv_assignData_other w w2 d h e2 hstep (Ne.symm hd)
            have := ih w2 e (hsame.trans hget) hrun
            simpa [lastAssigned, hd] using this

/-- C18: once `getEnv(h)` returns an environment, after any completed
further sequence of `assignData` and `getEnv` calls `getEnv(h)` still returns
an environment, the one last assigned to `h` (the earlier one when `h` was
not assigned again); `getEnv` never changes the world; and assigning an
environment to a second handle leaves the entry of its first handle in
place. -/
theorem C18_entries_persist (cs : List RegistryCall) (w w1 : World) (h : mjDataRaw)
    (e : EnvId) (hget : (environments.getEnv w h).1 = some e)
    (hrun : runCalls w cs = some w1) :
    ((environments.getEnv w1 h).1 = lastAssigned h cs (some e) ∧
      ∃ e1 : EnvId, (environments.getEnv w1 h).1 = some e1) ∧
    (∀ (w0 : World) (d : mjDataRaw), (environments.getEnv w0 d).2 = w0) ∧
    (∀ (w0 w2 w3 : World) (h1 h2 : mjDataRaw) (env : EnvId),
      environments.assignData w0 h1 (some env) = some w2 →
      h2 ≠ h1 →
      environments.assignData w2 h2 (some env) = some w3 →
      (environments.getEnv w3 h1).1 = some env) := by
  obtain ⟨e1, h1, h2⟩ := runCalls_getEnv_lastAssigned cs w w1 h e hget hrun
  refine ⟨⟨h1.trans h2.symm, e1, h1⟩, environments.getEnv_snd, ?_⟩
  intro w0 w2 w3 ha hb env hA hne hB
  rw [environments.getEnv_assignData_other w2 w3 hb ha env hB (Ne.symm hne)]
  exact environments.getEnv_assignData_same w0 w2 ha env hA

/-- C18 at a concrete input: handle `1` is mapped to environment `0`; then
environment `0` is assigned handle `2`, handle `1` is looked up, and handle
`1` is assigned to environment `3`. -/
theorem C18_entries_persist_witness :
    ∃ w1, runCalls { env_map_ := [(some 1, some 0)], heap := World.initial.heap }
        [RegistryCall.assignData (some 2) (some 0), RegistryCall.getEnv (some 1),
          RegistryCall.assignData (some 1) (some 3)] = some w1 ∧
      (environments.getEnv w1 (some 1)).1 = some 3 ∧
      (environments.getEnv w1 (some 2)).1 = some 0 :=
  ⟨_, rfl,
    (C18_entries_persist
      [RegistryCall.assignData (some 2) (some 0), RegistryCall.getEnv (some 1),
        RegistryCall.assignData (some 1) (some 3)]
      { env_map_ := [(some 1, some 0)], heap := World.initial.heap } _ (some 1) 0 rfl rfl).1.1,
    rfl⟩

/-! ## Camera schedule lemmas -/

/-- The period is at least one step. -/
theorem steps_per_period_pos (dt f : ℚ) (hdt : 0 < dt) (hf : 0 < f) :
    0 < steps_per_period dt f := by
  unfold steps_per_period
  exact Int.ceil_pos.mpr (one_div_pos.mpr (mul_pos hf hdt))

/-- A trigger time `t0 + j * (N * dt)` has been reached after `k` steps
exactly when `ceil(t0 / dt) + j * N ≤ k`. -/
theorem trigger_le_iff (dt t0 : ℚ) (N : ℤ) (j k : ℕ) (hdt : 0 < dt) :
    t0 + (j : ℚ) * ((N : ℚ) * dt) ≤ (k : ℚ) * dt ↔ ⌈t0 / dt⌉ + (j : ℤ) * N ≤ (k : ℤ) := by
  have h1 : t0 + (j : ℚ) * ((N : ℚ) * dt) ≤ (k : ℚ) * dt ↔
      t0 / dt ≤ (((k : ℤ) - (j : ℤ) * N : ℤ) : ℚ) := by
    rw [div_le_iff₀ hdt]
    push_cast
    constructor <;> intro h <;> linarith
  rw [h1, ← Int.ceil_le]
  constructor <;> intro h <;> linarith

/-- The state of the schedule after `k` steps: `j` fires have happened, the
next trigger lies strictly after step `k`, and the last fire, if any, is at
most one period back. -/
theorem CameraSchedule.afterSteps_inv (dt f t0 : ℚ) (hdt : 0 < dt) (hf : 0 < f)
    (ht0 : 0 < t0) (k : ℕ) :
    ∃ j : ℕ,
      (CameraSchedule.afterSteps dt f { next_trigger_time := t0 } k).next_trigger_time =
        t0 + (j : ℚ) * ((steps_per_period dt f : ℚ) * dt) ∧
      (k : ℤ) < ⌈t0 / dt⌉ + (j : ℤ) * steps_per_period dt f ∧
      (j = 0 ∨ ⌈t0 / dt⌉ + (j : ℤ) * steps_per_period dt f ≤ (k : ℤ) + steps_per_period dt f) := by
  have hN := steps_per_period_pos dt f hdt hf
  induction k with
  | zero =>
    refine ⟨0, by simp [CameraSchedule.afterSteps], ?_, Or.inl rfl⟩
    have : 0 < ⌈t0 / dt⌉ := Int.ceil_pos.mpr (div_pos ht0 hdt)
    simpa using this
  | succ k ih =>
    obtain ⟨j, hnext, hlt, hback⟩ := ih
    have hiff := trigger_le_iff dt t0 (steps_per_period dt f) j (k + 1) hdt
    by_cases hfire :
        (CameraSchedule.afterSteps dt f { next_trigger_time := t0 } k).next_trigger_time ≤
          (((k + 1 : ℕ) : ℚ)) * dt
    · have hle : ⌈t0 / dt⌉ + (j : ℤ) * steps_per_period dt f ≤ ((k + 1 : ℕ) : ℤ) := by
        rw [hnext] at hfire
        exact hiff.mp hfire
      refine ⟨j + 1, ?_, ?_, Or.inr ?_⟩
      · simp only [CameraSchedule.afterSteps, CameraSchedule.evaluate, if_pos hfire]
        rw [hnext]
        push_cast
        ring
      · push_cast at hle ⊢
        linarith
      · push_cast at hle ⊢
        linarith
    · have hnle : ¬ ⌈t0 / dt⌉ + (j : ℤ) * steps_per_period dt f ≤ ((k + 1 : ℕ) : ℤ) := by
        rw [hnext] at hfire
        exact fun h => hfire (hiff.mpr h)
      refine ⟨j, ?_, ?_, ?_⟩
      · simp only [CameraSchedule.afterSteps, CameraSchedule.evaluate, if_neg hfire]
        exact hnext
      · push_cast at hnle ⊢
        linarith
      · rcases hback with h0 | hb
        · exact Or.inl h0
        · right
          push_cast
          linarith

/-- The steps at which a camera fires: the first step at which the first
trigger time has been reached, and every whole number of periods after it. -/
theorem CameraSchedule.firesAt_iff (dt f t0 : ℚ) (hdt : 0 < dt) (hf : 0 < f)
    (ht0 : 0 < t0) (k : ℕ) :
    CameraSchedule.firesAt dt f { next_trigger_time := t0 } k = true ↔
      ∃ j : ℕ, (k : ℤ) = ⌈t0 / dt⌉ + (j : ℤ) * steps_per_period dt f := by
  have hN := steps_per_period_pos dt f hdt hf
  have hK : 0 < ⌈t0 / dt⌉ := Int.ceil_pos.mpr (div_pos ht0 hdt)
  cases k with
  | zero =>
    simp only [CameraSchedule.firesAt, Bool.false_eq_true, false_iff]
    rintro ⟨j, hj⟩
    have : 0 ≤ (j : ℤ) * steps_per_period dt f := mul_nonneg (Int.ofNat_nonneg j) hN.le
    push_cast at hj
    linarith
  | succ k =>
    obtain ⟨j, hnext, hlt, hback⟩ := CameraSchedule.afterSteps_inv dt f t0 hdt hf ht0 k
    have hiff := trigger_le_iff dt t0 (steps_per_period dt f) j (k + 1) hdt
    have hfires : CameraSchedule.firesAt dt f { next_trigger_time := t0 } (k + 1) = true ↔
        ⌈t0 / dt⌉ + (j : ℤ) * steps_per_period dt f ≤ ((k + 1 : ℕ) : ℤ) := by
      rw [← hiff, ← hnext]
      simp only [CameraSchedule.firesAt, CameraSchedule.evaluate]
      split <;> simp_all
    rw [hfires]
    constructor
    · intro hle
      refine ⟨j, ?_⟩
      push_cast at hle ⊢
      linarith
    · rintro ⟨i, hi⟩
      by_contra hgt
      have hij : (i : ℤ) + 1 ≤ (j : ℤ) := by
        by_contra hji
        have hji2 : (j : ℤ) ≤ (i : ℤ) := by linarith
        have := mul_le_mul_of_nonneg_right hji2 hN.le
        exact hgt (by rw [hi]; linarith)
      have hmul := mul_le_mul_of_nonneg_right hij hN.le
      rcases hback with h0 | hb
      · subst h0
        have : (0 : ℤ) ≤ (i : ℤ) := Int.ofNat_nonneg i
        simp at hij
        linarith
      · push_cast at hi
        linarith

/-- A camera that fires in step `k` fires again exactly one period later and
in no step in between. -/
theorem CameraSchedule.firesAt_next (dt f t0 : ℚ) (hdt : 0 < dt) (hf : 0 < f)
    (ht0 : 0 < t0) (k : ℕ)
    (hk : CameraSchedule.firesAt dt f { next_trigger_time := t0 } k = true) :
    CameraSchedule.firesAt dt f { next_trigger_time := t0 }
        (k + (steps_per_period dt f).toNat) = true ∧
    ∀ i : ℕ, 0 < i → i < (steps_per_period dt f).toNat →
      CameraSchedule.firesAt dt f { next_trigger_time := t0 } (k + i) = false := by
  have hN := steps_per_period_pos dt f hdt hf
  have hcast : (((steps_per_period dt f).toNat : ℕ) : ℤ) = steps_per_period dt f :=
    Int.toNat_of_nonneg hN.le
  obtain ⟨j, hj⟩ := (CameraSchedule.firesAt_iff dt f t0 hdt hf ht0 k).mp hk
  refine ⟨?_, ?_⟩
  · refine (CameraSchedule.firesAt_iff dt f t0 hdt hf ht0 _).mpr ⟨j + 1, ?_⟩
    push_cast
    rw [hcast]
    linarith
  · intro i hi0 hiN
    cases hfi : CameraSchedule.firesAt dt f { next_trigger_time := t0 } (k + i) with
    | false => rfl
    | true =>
      exfalso
      obtain ⟨j2, hj2⟩ := (CameraSchedule.firesAt_iff dt f t0 hdt hf ht0 _).mp hfi
      have hi0z : (0 : ℤ) < (i : ℤ) := by exact_mod_cast hi0
      have hiNz : (i : ℤ) < steps_per_period dt f := by
        rw [← hcast]
        exact_mod_cast hiN
      push_cast at hj2
      by_cases hle : (j2 : ℤ) ≤ (j : ℤ)
      · have := mul_le_mul_of_nonneg_right hle hN.le
        linarith
      · have hge : (j : ℤ) + 1 ≤ (j2 : ℤ) := by linarith
        have := mul_le_mul_of_nonneg_right hge hN.le
        linarith

/-- Steps without a fire publish nothing. -/
theorem CameraSchedule.published_of_no_fire (dt f : ℚ) (c : CameraSchedule) (a b : ℕ)
    (hab : a ≤ b) (hno : ∀ i, a < i → i ≤ b → c.firesAt dt f i = false) :
    c.published dt f b = c.published dt f a := by
  induction b, hab using Nat.le_induction with
  | base => rfl
  | succ b hb ih =>
    have hlast : c.firesAt dt f (b + 1) = false := hno (b + 1) (Nat.lt_succ_of_le hb) le_rfl
    simp only [CameraSchedule.published, hlast, Bool.false_eq_true, if_false]
    exact ih (fun i h1 h2 => hno i h1 (Nat.le_succ_of_le h2))

/-- A step with a fire publishes one image, stamped with the time of that
step. -/
theorem CameraSchedule.published_of_fire (dt f : ℚ) (c : CameraSchedule) (k : ℕ)
    (hk : c.firesAt dt f (k + 1) = true) :
    c.published dt f (k + 1) = c.published dt f k ++ [(((k + 1 : ℕ) : ℚ)) * dt] := by
  simp only [CameraSchedule.published, hk, if_true]

/-- For a timestep of 1/500 s and 30 Hz the period is 17 steps. -/
theorem steps_per_period_example : steps_per_period (1 / 500) 30 = 17 := by
  unfold steps_per_period
  rw [Int.ceil_eq_iff]
  norm_num

/-- The step count the timing test computes for a timestep of 1/500 s. -/
theorem n_steps_example : ⌈(1 / 30 : ℚ) / (1 / 500)⌉ = 17 := by
  rw [Int.ceil_eq_iff]
  norm_num

/-- With a timestep of 1/500 s, 30 Hz and the first trigger one step after
the start, the camera fires exactly in the steps `1 + 17 * j`. -/
theorem firesAt_example (k : ℕ) :
    CameraSchedule.firesAt (1 / 500) 30 { next_trigger_time := 1 / 500 } k = true ↔
      ∃ j : ℕ, k = 1 + 17 * j := by
  rw [CameraSchedule.firesAt_iff (1 / 500) 30 (1 / 500) (by norm_num) (by norm_num)
    (by norm_num) k, steps_per_period_example]
  have hK : ⌈(1 / 500 : ℚ) / (1 / 500)⌉ = 1 := by
    rw [Int.ceil_eq_iff]
    norm_num
  rw [hK]
  constructor
  · rintro ⟨j, hj⟩
    exact ⟨j, by omega⟩
  · rintro ⟨j, hj⟩
    exact ⟨j, by omega⟩

/-- The schedule whose first trigger is one step after the start passes the
timing test at a timestep of 1/500 s. -/
theorem Cam_Timing_Correct_example :
    Cam_Timing_Correct (1 / 500) { next_trigger_time := 1 / 500 } := by
  have hno : ∀ i : ℕ, (∀ j : ℕ, i ≠ 1 + 17 * j) →
      CameraSchedule.firesAt (1 / 500) 30 { next_trigger_time := 1 / 500 } i = false := by
    intro i hi
    cases hfi : CameraSchedule.firesAt (1 / 500) 30 { next_trigger_time := 1 / 500 } i with
    | false => rfl
    | true =>
      obtain ⟨j, hj⟩ := (firesAt_example i).mp hfi
      exact absurd hj (hi j)
  have h1 : CameraSchedule.published (1 / 500) 30 { next_trigger_time := 1 / 500 } 1 =
      [((1 : ℕ) : ℚ) * (1 / 500)] := by
    rw [CameraSchedule.published_of_fire _ _ _ 0 ((firesAt_example 1).mpr ⟨0, rfl⟩)]
    rfl
  have h17 : CameraSchedule.published (1 / 500) 30 { next_trigger_time := 1 / 500 } 17 =
      [((1 : ℕ) : ℚ) * (1 / 500)] := by
    rw [CameraSchedule.published_of_no_fire _ _ _ 1 17 (by norm_num)
      (fun i ha hb => hno i (fun j => by omega)), h1]
  have h18 : CameraSchedule.published (1 / 500) 30 { next_trigger_time := 1 / 500 } 18 =
      [((1 : ℕ) : ℚ) * (1 / 500), ((18 : ℕ) : ℚ) * (1 / 500)] := by
    rw [CameraSchedule.published_of_fire _ _ _ 17 ((firesAt_example 18).mpr ⟨1, rfl⟩), h17]
    rfl
  have h34 : CameraSchedule.published (1 / 500) 30 { next_trigger_time := 1 / 500 } 34 =
      [((1 : ℕ) : ℚ) * (1 / 500), ((18 : ℕ) : ℚ) * (1 / 500)] := by
    rw [CameraSchedule.published_of_no_fire _ _ _ 18 34 (by norm_num)
      (fun i ha hb => hno i (fun j => by omega)), h18]
  have h35 : CameraSchedule.published (1 / 500) 30 { next_trigger_time := 1 / 500 } 35 =
      [((1 : ℕ) : ℚ) * (1 / 500), ((18 : ℕ) : ℚ) * (1 / 500),
        ((35 : ℕ) : ℚ) * (1 / 500)] := by
    rw [CameraSchedule.published_of_fire _ _ _ 34 ((firesAt_example 35).mpr ⟨2, rfl⟩), h34]
    rfl
  have h51 : CameraSchedule.published (1 / 500) 30 { next_trigger_time := 1 / 500 } 51 =
      [((1 : ℕ) : ℚ) * (1 / 500), ((18 : ℕ) : ℚ) * (1 / 500),
        ((35 : ℕ) : ℚ) * (1 / 500)] := by
    rw [CameraSchedule.published_of_no_fire _ _ _ 35 51 (by norm_num)
      (fun i ha hb => hno i (fun j => by omega)), h35]
  have hn : ⌈(1 / 30 : ℚ) / (1 / 500)⌉.toNat = 17 := by
    rw [n_steps_example]
    rfl
  unfold Cam_Timing_Correct
  rw [hn]
  refine ⟨h1, h17, h18, ?_⟩
  rw [show 1 + (17 - 1) + 1 + (2 * 17 - 1) = 51 from rfl, h51]
  norm_num

/-- A schedule that passes the timing test fires in the first step. -/
theorem Cam_Timing_Correct.fires_first (dt : ℚ) (c : CameraSchedule)
    (h : Cam_Timing_Correct dt c) : c.firesAt dt 30 1 = true := by
  have h1 := h.1
  cases hf : c.firesAt dt 30 1 with
  | true => rfl
  | false => simp [CameraSchedule.published, hf] at h1

/-- At a timestep of 1/500 s and 30 Hz the time of the first step is not a
multiple of the period. -/
theorem first_step_not_multiple (c : CameraSchedule)
    (h : c.firesAt (1 / 500) 30 1 = true) : ¬ FiresOnMultiples (1 / 500) 30 c := by
  intro hall
  obtain ⟨m, hm⟩ := hall 1 h
  rw [steps_per_period_example] at hm
  have h17 : (17 : ℚ) * (m : ℚ) = 1 := by
    push_cast at hm
    linarith
  have hz : (17 : ℤ) * m = 1 := by exact_mod_cast h17
  omega

/-- With the first trigger one whole period after the start (the first fire
of the scenario in the specification), nothing is published in the first
step, so the timing test fails. -/
theorem Cam_Timing_Correct_fails_on_period_start :
    ¬ Cam_Timing_Correct (1 / 500) { next_trigger_time := 17 / 500 } := by
  intro h
  have hfire := Cam_Timing_Correct.fires_first _ _ h
  obtain ⟨j, hj⟩ := (CameraSchedule.firesAt_iff (1 / 500) 30 (17 / 500) (by norm_num)
    (by norm_num) (by norm_num) 1).mp hfire
  have hK : ⌈(17 / 500 : ℚ) / (1 / 500)⌉ = 17 := by
    rw [Int.ceil_eq_iff]
    norm_num
  rw [hK, steps_per_period_example] at hj
  omega

/-! ## Camera claims -/

/-- C15, refuted as stated: at a timestep of 1/500 s and 30 Hz, the schedule
that passes the repository's timing test (first image after the first step)
fires in step 1, at simulation time 1/500 s, which is not a multiple of the
period of 17 steps; every schedule that passes the test does so, and the
schedule that starts one whole period after the start does not pass it. -/
theorem C15_not_on_multiples_counterexample :
    Cam_Timing_Correct (1 / 500) { next_trigger_time := 1 / 500 } ∧
    CameraSchedule.firesAt (1 / 500) 30 { next_trigger_time := 1 / 500 } 1 = true ∧
    ¬ FiresOnMultiples (1 / 500) 30 { next_trigger_time := 1 / 500 } ∧
    (∀ c : CameraSchedule, Cam_Timing_Correct (1 / 500) c → ¬ FiresOnMultiples (1 / 500) 30 c) ∧
    ¬ Cam_Timing_Correct (1 / 500) { next_trigger_time := 17 / 500 } :=
  ⟨Cam_Timing_Correct_example,
    Cam_Timing_Correct.fires_first _ _ Cam_Timing_Correct_example,
    first_step_not_multiple _ (Cam_Timing_Correct.fires_first _ _ Cam_Timing_Correct_example),
    fun c hc => first_step_not_multiple c (Cam_Timing_Correct.fires_first _ c hc),
    Cam_Timing_Correct_fails_on_period_start⟩

/-- C15, amended: for every timestep `dt > 0`, frequency `f > 0` and first
trigger time `t0 > 0`, with `N = ceil(1/(f*dt))` the camera fires exactly in
the steps `ceil(t0/dt) + j * N`; a camera that fires in step `k` fires again
in step `k + N` and in no step in between; its fire times are the time of the
first fire plus exact multiples of `N * dt`; and for `dt = 1/500`, `f = 30`
the period is 17 steps, 0.034 s of simulated time. -/
theorem C15_camera_period (dt f t0 : ℚ) (hdt : 0 < dt) (hf : 0 < f) (ht0 : 0 < t0) :
    0 < steps_per_period dt f ∧
    (∀ k : ℕ, CameraSchedule.firesAt dt f { next_trigger_time := t0 } k = true ↔
      ∃ j : ℕ, (k : ℤ) = ⌈t0 / dt⌉ + (j : ℤ) * steps_per_period dt f) ∧
    (∀ k : ℕ, CameraSchedule.firesAt dt f { next_trigger_time := t0 } k = true →
      CameraSchedule.firesAt dt f { next_trigger_time := t0 }
          (k + (steps_per_period dt f).toNat) = true ∧
      ∀ i : ℕ, 0 < i → i < (steps_per_period dt f).toNat →
        CameraSchedule.firesAt dt f { next_trigger_time := t0 } (k + i) = false) ∧
    (∀ k : ℕ, CameraSchedule.firesAt dt f { next_trigger_time := t0 } k = true →
      ∃ j : ℕ, (k : ℚ) * dt =
        (⌈t0 / dt⌉ : ℚ) * dt + (j : ℚ) * ((steps_per_period dt f : ℚ) * dt)) ∧
    steps_per_period (1 / 500) 30 = 17 ∧
    ((17 : ℤ) : ℚ) * (1 / 500) = 34 / 1000 := by
  refine ⟨steps_per_period_pos dt f hdt hf, CameraSchedule.firesAt_iff dt f t0 hdt hf ht0,
    CameraSchedule.firesAt_next dt f t0 hdt hf ht0, ?_, steps_per_period_example, by norm_num⟩
  intro k hk
  obtain ⟨j, hj⟩ := (CameraSchedule.firesAt_iff dt f t0 hdt hf ht0 k).mp hk
  refine ⟨j, ?_⟩
  have hq : (k : ℚ) = (⌈t0 / dt⌉ : ℚ) + (j : ℚ) * (steps_per_period dt f : ℚ) := by
    exact_mod_cast hj
  rw [hq]
  ring

/-- C15 amended, at a concrete input: timestep 1/500 s, 30 Hz, first trigger
at 1/500 s. The camera fires in step 1, again in step 18, and in none of the
steps 2 to 17. -/
theorem C15_camera_period_witness :
    CameraSchedule.firesAt (1 / 500) 30 { next_trigger_time := 1 / 500 } 1 = true ∧
    CameraSchedule.firesAt (1 / 500) 30 { next_trigger_time := 1 / 500 } 18 = true ∧
    ∀ i : ℕ, 0 < i → i < 17 →
      CameraSchedule.firesAt (1 / 500) 30 { next_trigger_time := 1 / 500 } (1 + i) = false := by
  have h := C15_camera_period (1 / 500) 30 (1 / 500) (by norm_num) (by norm_num) (by norm_num)
  have h1 : CameraSchedule.firesAt (1 / 500) 30 { next_trigger_time := 1 / 500 } 1 = true :=
    (firesAt_example 1).mpr ⟨0, rfl⟩
  have hnext := h.2.2.1 1 h1
  rw [steps_per_period_example] at hnext
  exact ⟨h1, hnext.1, hnext.2⟩

/-- C16: a camera with no configured parameter gets frequency 15, width 720,
height 480 and stream-type RGB; configuring one parameter replaces that field
of the camera and no other; and the cameras built from the parameters of the
two tests meet the expectations of those tests. -/
theorem C16_camera_defaults (cam_id : Nat) (cam_name : String) (p : CamConfigParams) :
    OffscreenCamera.configure cam_id cam_name
        { stream_type := none, width := none, height := none, frequency := none } =
      { cam_id_ := cam_id, cam_name_ := cam_name, stream_type_ := streamType.RGB,
        pub_freq_ := 15, width_ := 720, height_ := 480 } ∧
    (∀ w : Nat, OffscreenCamera.configure cam_id cam_name { p with width := some w } =
      { OffscreenCamera.configure cam_id cam_name p with width_ := w }) ∧
    (∀ h : Nat, OffscreenCamera.configure cam_id cam_name { p with height := some h } =
      { OffscreenCamera.configure cam_id cam_name p with height_ := h }) ∧
    (∀ q : ℚ, OffscreenCamera.configure cam_id cam_name { p with frequency := some q } =
      { OffscreenCamera.configure cam_id cam_name p with pub_freq_ := q }) ∧
    (∀ t : streamType,
      OffscreenCamera.configure cam_id cam_name { p with stream_type := some t } =
        { OffscreenCamera.configure cam_id cam_name p with stream_type_ := t }) ∧
    OffscreenCamera.configure cam_id cam_name
        { stream_type := none, width := some 640, height := none, frequency := none } =
      { cam_id_ := cam_id, cam_name_ := cam_name, stream_type_ := streamType.RGB,
        pub_freq_ := 15, width_ := 640, height_ := 480 } ∧
    Cam_Settings_Expected (OffscreenCamera.configure 0 "test_cam" Default_Cam_Settings_params)
      720 480 ∧
    Cam_Settings_Expected (OffscreenCamera.configure 0 "test_cam" Resolution_Settings_params)
      640 480 := by
  refine ⟨rfl, fun _ => rfl, fun _ => rfl, fun _ => rfl, fun _ => rfl, rfl, ?_, ?_⟩
  · exact ⟨rfl, rfl, rfl, rfl, rfl, rfl⟩
  · exact ⟨rfl, rfl, rfl, rfl, rfl, rfl⟩

end MujocoSim
